import Mathlib

/-!
Shallow embedding of the per-item gesture engine of `react-swipeable-list`
(`SwipeableListItem`, the class component in the repository source).
Pixel coordinates, offsets and element widths are integers; the trigger
ratio and opacity values are rationals.  Each event handler of the class is
embedded as a pure function from the mutable instance fields (an
`ItemState`) and the DOM surface (a `Dom`) to updated values plus a list of
observable effects (style writes and callback invocations).
-/

attribute [local semireducible] Rat.add Rat.sub Rat.mul Rat.inv

namespace SwipeableListItem

/-- `DragDirection` constants of the source (UP/DOWN/LEFT/RIGHT/UNKNOWN). -/
inductive DragDirection
  | up
  | down
  | left
  | right
  | unknown
deriving DecidableEq, Repr

/-- `ActionAnimations` constants (`RETURN`, `REMOVE`, `NONE`). -/
inductive ActionAnimation
  | RETURN
  | REMOVE
  | NONE
deriving DecidableEq, Repr

/-- The two reveal panels: `contentLeft` (rendered from `swipeLeft.content`)
and `contentRight` (rendered from `swipeRight.content`). -/
inductive Panel
  | leftPanel
  | rightPanel
deriving DecidableEq, Repr

/-- The exact string written to a panel's `style.opacity`:
`"0"` (written by the animations), `"1"`, or a `toFixed(2)` rendering of a
value below 1 (carrying the rounded rational it denotes).  Two such strings
are equal iff the constructors and rounded values agree. -/
inductive OpacityStr
  | plain0
  | plain1
  | fixed2 (q : ℚ)
deriving DecidableEq, Repr

/-- An `ISwipeActionProps` value: the (optional, defensively checked)
`action` callback presence and the optional `actionAnimation`. -/
structure SwipeAction where
  hasAction : Bool
  actionAnimation : Option ActionAnimation
deriving DecidableEq, Repr

/-- The props consulted by the gesture engine.  Callbacks are modelled by
presence flags; their invocations are recorded as effects. -/
structure Props where
  blockSwipe : Bool
  swipeLeft : Option SwipeAction
  swipeRight : Option SwipeAction
  swipeStartThreshold : Option ℤ
  scrollStartThreshold : Option ℤ
  threshold : Option ℚ
  hasOnSwipeStart : Bool
  hasOnSwipeEnd : Bool
  hasOnSwipeProgress : Bool
deriving DecidableEq, Repr

/-- The rendering surface: whether `listElement`, `contentLeft`,
`contentRight` are mounted (non-null refs) and the item's `offsetWidth`. -/
structure Env where
  listElement : Bool
  offsetWidth : ℤ
  contentLeft : Bool
  contentRight : Bool
deriving DecidableEq, Repr

/-- A point carrying `clientX`/`clientY`. -/
structure Point where
  x : ℤ
  y : ℤ
deriving DecidableEq, Repr

/-- The mutable per-gesture instance fields of the component.  The source
initialises `startTime` to `null`, which JavaScript subtraction coerces to
`0`; `requestedAnimationFrame` is null-or-handle, modelled as a Bool. -/
structure ItemState where
  dragStartPoint : Point
  dragDirection : DragDirection
  left : ℤ
  previousSwipeDistancePercent : ℤ
  startTime : ℤ
  requestedAnimationFrame : Bool
deriving DecidableEq, Repr

/-- The style state the engine writes: the foreground `translateX` and the
`style.opacity` strings of the two panels (`none` = never written). -/
structure Dom where
  transformX : ℤ
  leftOpacity : Option OpacityStr
  rightOpacity : Option OpacityStr
deriving DecidableEq, Repr

/-- One observable effect: a style write or a callback/action invocation. -/
inductive Effect
  | transform (x : ℤ)
  | opacity (p : Panel) (v : OpacityStr)
  | progress (n : ℤ)
  | swipeStartCb
  | swipeEndCb
  | actionLeft
  | actionRight
deriving DecidableEq, Repr

/-- Result of running one event handler: new state, new DOM, emitted
effects, and whether the handler threw (a `TypeError` from reading a
property of `undefined`); on a fault the handler's remaining statements do
not run. -/
structure StepResult where
  s : ItemState
  d : Dom
  fx : List Effect
  faulted : Bool
deriving DecidableEq, Repr

/-- `FPS_INTERVAL = 1000 / 60` (milliseconds, exact). -/
def FPS_INTERVAL : ℚ := 1000 / 60

/-- `resetState` (source lines 212-217). -/
def resetState (s : ItemState) : ItemState :=
  { s with
    dragStartPoint := ⟨-1, -1⟩
    dragDirection := DragDirection.unknown
    left := 0
    previousSwipeDistancePercent := 0 }

/-- `get dragHorizontalDirectionThreshold` (lines 219-221):
`this.props.swipeStartThreshold || 10` — the JavaScript `||` replaces the
falsy value `0` (and an absent prop) by the default `10`. -/
def dragHorizontalDirectionThreshold (P : Props) : ℤ :=
  match P.swipeStartThreshold with
  | some v => if v = 0 then 10 else v
  | none => 10

/-- `get dragVerticalDirectionThreshold` (lines 223-225):
`this.props.scrollStartThreshold || 10`. -/
def dragVerticalDirectionThreshold (P : Props) : ℤ :=
  match P.scrollStartThreshold with
  | some v => if v = 0 then 10 else v
  | none => 10

/-- `dragStartedWithinItem` (lines 429-433). -/
def dragStartedWithinItem (s : ItemState) : Bool :=
  s.dragStartPoint.x != -1 && s.dragStartPoint.y != -1

/-- `isSwiping` (lines 490-497). -/
def isSwiping (P : Props) (s : ItemState) : Bool :=
  !P.blockSwipe && dragStartedWithinItem s &&
    (s.dragDirection == DragDirection.left || s.dragDirection == DragDirection.right)

/-- Decides `a < Real.sqrt 2 * b` exactly for integers, assuming `0 ≤ b`:
true iff `a < 0`, or `a ≥ 0` and `a ^ 2 < 2 * b ^ 2` (equality `a ^ 2 = 2 * b ^ 2`
happens only at `a = b = 0`, where both sides give false). -/
def ltSqrtTwoMul (a b : ℤ) : Bool :=
  a < 0 || a * a < 2 * (b * b)

/-- Exact integer evaluation of the source's octant computation
`Math.round((8 * Math.atan2(dy, dx)) / (2 * Math.PI) + 8) % 8`
(lines 448-449).  The octant boundaries are the rays of slope
`±(Real.sqrt 2 - 1)` and `±(Real.sqrt 2 + 1)`, which pass through no
nonzero integer point, so each comparison with the irrational slopes is
decided by `ltSqrtTwoMul`; `octant 0 0 = 0` matches `Math.atan2(0, 0) = 0`.
Octant 0 is rightward (angle within `π/8` of 0), 4 leftward, 1-3 the
downward half, 5-7 the upward half. -/
def octant (dx dy : ℤ) : ℕ :=
  if 0 < dx then
    if 0 ≤ dy then
      if ltSqrtTwoMul (dy + dx) dx then 0
      else if ltSqrtTwoMul (dy - dx) dx then 1
      else 2
    else
      if ltSqrtTwoMul (dx - dy) dx then 0
      else if ltSqrtTwoMul (-dy - dx) dx then 7
      else 6
  else if dx = 0 then
    if 0 < dy then 2 else if dy < 0 then 6 else 0
  else
    if 0 < dy then
      if ltSqrtTwoMul (dy + -dx) (-dx) then 4
      else if ltSqrtTwoMul (dy - -dx) (-dx) then 3
      else 2
    else if dy = 0 then 4
    else
      if ltSqrtTwoMul (-dy + -dx) (-dx) then 4
      else if ltSqrtTwoMul (-dy - -dx) (-dx) then 5
      else 6

/-- The octant switch of `setDragDirection` (lines 451-482): octant 0
resolves to RIGHT only when `contentRight` is mounted and the horizontal
distance exceeds the threshold, octant 4 to LEFT symmetrically gated on
`contentLeft`; the down half (1-3) and up half (5-7) resolve past the
vertical threshold; an unmet gate leaves the direction unchanged. -/
def classifyDirection (P : Props) (E : Env) (x y : ℤ) (s : ItemState) :
    ItemState :=
  let oct := octant (x - s.dragStartPoint.x) (y - s.dragStartPoint.y)
  if oct = 0 then
    if E.contentRight = true ∧
        |x - s.dragStartPoint.x| > dragHorizontalDirectionThreshold P then
      { s with dragDirection := DragDirection.right }
    else s
  else if oct = 1 ∨ oct = 2 ∨ oct = 3 then
    if |y - s.dragStartPoint.y| > dragVerticalDirectionThreshold P then
      { s with dragDirection := DragDirection.down }
    else s
  else if oct = 4 then
    if E.contentLeft = true ∧
        |x - s.dragStartPoint.x| > dragHorizontalDirectionThreshold P then
      { s with dragDirection := DragDirection.left }
    else s
  else
    if |y - s.dragStartPoint.y| > dragVerticalDirectionThreshold P then
      { s with dragDirection := DragDirection.up }
    else s

/-- `setDragDirection` (lines 435-488): one-shot classification while the
direction is still `UNKNOWN`; within both thresholds nothing happens;
otherwise the octant switch runs and `onSwipeStart` fires when present and
`isSwiping()` just became true. -/
def setDragDirection (P : Props) (E : Env) (x y : ℤ) (s : ItemState) :
    ItemState × List Effect :=
  if s.dragDirection == DragDirection.unknown then
    if |x - s.dragStartPoint.x| ≤ dragHorizontalDirectionThreshold P ∧
        |y - s.dragStartPoint.y| ≤ dragVerticalDirectionThreshold P then
      (s, [])
    else
      let s1 := classifyDirection P E x y s
      (s1, if P.hasOnSwipeStart && isSwiping P s1 then [Effect.swipeStartCb] else [])
  else (s, [])

/-- `scheduleUpdatePosition` (lines 499-509): requesting a frame while one
is already pending is a no-op. -/
def scheduleUpdatePosition (s : ItemState) : ItemState :=
  if s.requestedAnimationFrame then s
  else { s with requestedAnimationFrame := true }

/-- `get onlyLeftContent` (lines 511-513). -/
def onlyLeftContent (E : Env) : Bool :=
  E.contentLeft && !E.contentRight

/-- `get onlyRightContent` (lines 515-517). -/
def onlyRightContent (E : Env) : Bool :=
  !E.contentLeft && E.contentRight

/-- The mounted panel behind `this.contentLeft`, as an `Option Panel`. -/
def contentLeftRef (E : Env) : Option Panel :=
  if E.contentLeft then some Panel.leftPanel else none

/-- The mounted panel behind `this.contentRight`. -/
def contentRightRef (E : Env) : Option Panel :=
  if E.contentRight then some Panel.rightPanel else none

/-- Lines 524-534 of `updatePosition`: the initial choice
`contentToShow = this.left < 0 ? this.contentLeft : this.contentRight`
followed by the two single-panel clamps that zero `this.left` and override
the choice.  Returns the (possibly clamped) offset and the chosen panel. -/
def clampAndChoose (E : Env) (left : ℤ) : ℤ × Option Panel :=
  let c := if left < 0 then contentLeftRef E else contentRightRef E
  let lc := if onlyLeftContent E = true ∧ left > 0 then (0, contentLeftRef E) else (left, c)
  if onlyRightContent E = true ∧ lc.1 < 0 then (0, contentRightRef E) else lc

/-- Lines 550-558 of `updatePosition`: the progress percentage
`100 - Math.round((100 * max(0, width - |left|)) / width)` when the width
is nonzero, else the previous value. -/
def swipeDistancePercentOf (width left prev : ℤ) : ℤ :=
  if width ≠ 0 then
    let swipeDistance : ℤ := max 0 (width - |left|)
    100 - round ((100 * swipeDistance : ℚ) / (width : ℚ))
  else prev

/-- `Number(q).toFixed(2)` on a nonnegative rational: round to two decimal
places, ties away from zero. -/
def toFixed2 (q : ℚ) : ℚ :=
  (round (q * 100) : ℚ) / 100

/-- Read a panel's stored `style.opacity`. -/
def Dom.panelOpacity (d : Dom) : Panel → Option OpacityStr
  | Panel.leftPanel => d.leftOpacity
  | Panel.rightPanel => d.rightOpacity

/-- Write a panel's stored `style.opacity`. -/
def Dom.setPanelOpacity (d : Dom) (p : Panel) (v : OpacityStr) : Dom :=
  match p with
  | Panel.leftPanel => { d with leftOpacity := some v }
  | Panel.rightPanel => { d with rightOpacity := some v }

/-- Line 570 of `updatePosition`:
`contentToHide = this.left < 0 ? this.contentRight : this.contentLeft`
(read after the clamps). -/
def contentToHideOf (E : Env) (left : ℤ) : Option Panel :=
  if left < 0 then contentRightRef E else contentLeftRef E

/-- Lines 540-542 of `updatePosition`: write the `translateX` transform on
the foreground when `listElement` is mounted. -/
def transformPiece (E : Env) (d : Dom) (left : ℤ) : Dom × List Effect :=
  if E.listElement then
    ({ d with transformX := left }, [Effect.transform left])
  else (d, [])

/-- Lines 546-564 of `updatePosition`: compute the progress percentage and
notify `onSwipeProgress` only when the value changed; returns the new
`previousSwipeDistancePercent`. -/
def progressPiece (P : Props) (E : Env) (left prev : ℤ) : ℤ × List Effect :=
  if P.hasOnSwipeProgress && E.listElement then
    let pct := swipeDistancePercentOf E.offsetWidth left prev
    if prev ≠ pct then (pct, [Effect.progress pct]) else (prev, [])
  else (prev, [])

/-- Lines 544 and 566-579 of `updatePosition`: the revealed panel's opacity
is written as the `toFixed(2)` string when below 1 and different from the
stored style string (then the opposite panel is forced to `"0"`); at 1 or
above, `"1"` is written unconditionally. -/
def opacityPiece (E : Env) (panel : Panel) (left : ℤ) (d : Dom) :
    Dom × List Effect :=
  let opacity := toFixed2 ((|left| : ℚ) / 100)
  match (if opacity < 1 ∧ d.panelOpacity panel ≠ some (OpacityStr.fixed2 opacity) then
      let d2 := d.setPanelOpacity panel (OpacityStr.fixed2 opacity)
      match contentToHideOf E left with
      | some hp =>
        (d2.setPanelOpacity hp OpacityStr.plain0,
          [Effect.opacity panel (OpacityStr.fixed2 opacity),
            Effect.opacity hp OpacityStr.plain0])
      | none => (d2, [Effect.opacity panel (OpacityStr.fixed2 opacity)])
    else (d, ([] : List Effect))) with
  | (d3, fx3) =>
    if opacity ≥ 1 then
      (d3.setPanelOpacity panel OpacityStr.plain1,
        fx3 ++ [Effect.opacity panel OpacityStr.plain1])
    else (d3, fx3)

/-- `updatePosition` (lines 519-583).  Work happens only when more than
`FPS_INTERVAL` milliseconds elapsed since `startTime` and `isSwiping()`;
otherwise state, DOM and effects are untouched.  When the chosen panel is
absent the handler returns early (the clamp write to `this.left` having
already happened); otherwise it applies the transform, reports progress on
change, updates opacities with the string-inequality deduplication of the
source, and finally refreshes `startTime`. -/
def updatePosition (P : Props) (E : Env) (now : ℤ) (s : ItemState) (d : Dom) :
    ItemState × Dom × List Effect :=
  if ((now - s.startTime : ℤ) : ℚ) > FPS_INTERVAL ∧ isSwiping P s = true then
    match clampAndChoose E s.left with
    | (left, none) => ({ s with left := left }, d, [])
    | (left, some panel) =>
      match transformPiece E d left with
      | (d1, fx1) =>
        match progressPiece P E left s.previousSwipeDistancePercent with
        | (prev2, fx2) =>
          match opacityPiece E panel left d1 with
          | (d4, fx34) =>
            ({ s with
                left := left
                previousSwipeDistancePercent := prev2
                startTime := now },
              d4, fx1 ++ fx2 ++ fx34)
  else (s, d, [])

/-- `playReturnAnimation` (lines 343-364): translate the foreground back to
0 and write opacity `"0"` on each mounted panel. -/
def playReturnAnimation (E : Env) (d : Dom) : Dom × List Effect :=
  match (if E.listElement then
      ({ d with transformX := 0 }, [Effect.transform 0])
    else (d, ([] : List Effect))) with
  | (d1, fx1) =>
    match (if E.contentLeft then
        ({ d1 with leftOpacity := some OpacityStr.plain0 },
          [Effect.opacity Panel.leftPanel OpacityStr.plain0])
      else (d1, ([] : List Effect))) with
    | (d2, fx2) =>
      match (if E.contentRight then
          ({ d2 with rightOpacity := some OpacityStr.plain0 },
            [Effect.opacity Panel.rightPanel OpacityStr.plain0])
        else (d2, ([] : List Effect))) with
      | (d3, fx3) => (d3, fx1 ++ fx2 ++ fx3)

/-- `playRemoveAnimation` (lines 366-375): translate the foreground fully
off-screen, `offsetWidth * (direction === LEFT ? -1 : 1)`. -/
def playRemoveAnimation (E : Env) (direction : DragDirection) (d : Dom) :
    Dom × List Effect :=
  if E.listElement then
    let x := E.offsetWidth * (if direction == DragDirection.left then -1 else 1)
    ({ d with transformX := x }, [Effect.transform x])
  else (d, [])

/-- `playActionAnimation` (lines 377-391): `REMOVE` plays the remove
animation, `NONE` plays nothing, everything else (including an absent
`actionAnimation`) falls through to the return animation. -/
def playActionAnimation (E : Env) (type : Option ActionAnimation)
    (direction : DragDirection) (d : Dom) : Dom × List Effect :=
  if E.listElement then
    match type with
    | some ActionAnimation.REMOVE => playRemoveAnimation E direction d
    | some ActionAnimation.NONE => (d, [])
    | _ => playReturnAnimation E d
  else (d, [])

/-- `handleSwipedLeft` (lines 585-591): destructures `swipeLeft` with a
`{}` default and calls `action` only when present. -/
def handleSwipedLeft (P : Props) : List Effect :=
  match P.swipeLeft with
  | some sa => if sa.hasAction then [Effect.actionLeft] else []
  | none => []

/-- `handleSwipedRight` (lines 593-599). -/
def handleSwipedRight (P : Props) : List Effect :=
  match P.swipeRight with
  | some sa => if sa.hasAction then [Effect.actionRight] else []
  | none => []

/-- `handleDragEnd` (lines 393-427).  While `isSwiping()`, the final offset
is compared against `offsetWidth * threshold * -1` and
`offsetWidth * threshold` (threshold defaulting to `0.5` by destructuring);
the matching branch reads `swipeLeft.actionAnimation` (respectively
`swipeRight.actionAnimation`) WITHOUT a presence guard — when that side is
not configured the read of a property of `undefined` throws, aborting the
rest of the handler (`faulted`).  Otherwise the animation plays, the action
runs, `onSwipeEnd` fires when present, state is reset, and the return
animation plays iff no action triggered. -/
def handleDragEnd (P : Props) (E : Env) (s : ItemState) (d : Dom) : StepResult :=
  let w : ℚ := (E.offsetWidth : ℚ)
  let t : ℚ := P.threshold.getD (1 / 2)
  if isSwiping P s = true then
    if E.listElement = true ∧ (s.left : ℚ) < w * t * (-1) then
      match P.swipeLeft with
      | none => ⟨s, d, [], true⟩
      | some sa =>
        match playActionAnimation E sa.actionAnimation DragDirection.left d with
        | (d1, fx1) =>
          let fx2 := handleSwipedLeft P
          let fx3 := if P.hasOnSwipeEnd then [Effect.swipeEndCb] else []
          ⟨resetState s, d1, fx1 ++ fx2 ++ fx3, false⟩
    else if E.listElement = true ∧ (s.left : ℚ) > w * t then
      match P.swipeRight with
      | none => ⟨s, d, [], true⟩
      | some sa =>
        match playActionAnimation E sa.actionAnimation DragDirection.right d with
        | (d1, fx1) =>
          let fx2 := handleSwipedRight P
          let fx3 := if P.hasOnSwipeEnd then [Effect.swipeEndCb] else []
          ⟨resetState s, d1, fx1 ++ fx2 ++ fx3, false⟩
    else
      let fx3 := if P.hasOnSwipeEnd then [Effect.swipeEndCb] else []
      match playReturnAnimation E d with
      | (d1, fxR) => ⟨resetState s, d1, fx3 ++ fxR, false⟩
  else
    match playReturnAnimation E d with
    | (d1, fxR) => ⟨resetState s, d1, fxR, false⟩

/-- `handleDragStart` (lines 272-287): reset, capture the start point,
record the start time and request a frame. -/
def handleDragStart (p : Point) (now : ℤ) (s : ItemState) (d : Dom) : StepResult :=
  let s1 := resetState s
  let s2 := { s1 with dragStartPoint := p, startTime := now }
  ⟨scheduleUpdatePosition s2, d, [], false⟩

/-- `handleMouseMove` (lines 289-303). -/
def handleMouseMove (P : Props) (E : Env) (p : Point) (s : ItemState) :
    ItemState × List Effect :=
  if dragStartedWithinItem s then
    match setDragDirection P E p.x p.y s with
    | (s1, fx) =>
      if isSwiping P s1 then
        (scheduleUpdatePosition { s1 with left := p.x - s1.dragStartPoint.x }, fx)
      else (s1, fx)
  else (s, [])

/-- `handleTouchMove` (lines 305-323): like the mouse handler but bails out
after classification when the event is not cancelable. -/
def handleTouchMove (P : Props) (E : Env) (p : Point) (cancelable : Bool)
    (s : ItemState) : ItemState × List Effect :=
  if dragStartedWithinItem s then
    match setDragDirection P E p.x p.y s with
    | (s1, fx) =>
      if !cancelable then (s1, fx)
      else if isSwiping P s1 then
        (scheduleUpdatePosition { s1 with left := p.x - s1.dragStartPoint.x }, fx)
      else (s1, fx)
  else (s, [])

/-- The gesture-input events the component reacts to.  A `frame` event is
the browser delivering a previously requested animation frame (the
callback clears the pending handle and runs `updatePosition`). -/
inductive Ev
  | start (p : Point) (now : ℤ)
  | mouseMove (p : Point)
  | touchMove (p : Point) (cancelable : Bool)
  | frame (now : ℤ)
  | release
deriving DecidableEq, Repr

/-- A component configuration: props plus rendering surface. -/
structure Cfg where
  P : Props
  E : Env
deriving DecidableEq, Repr

/-- Dispatch one event to the matching handler. -/
def step (C : Cfg) (s : ItemState) (d : Dom) : Ev → StepResult
  | Ev.start p now => handleDragStart p now s d
  | Ev.mouseMove p =>
    match handleMouseMove C.P C.E p s with
    | (s1, fx) => ⟨s1, d, fx, false⟩
  | Ev.touchMove p c =>
    match handleTouchMove C.P C.E p c s with
    | (s1, fx) => ⟨s1, d, fx, false⟩
  | Ev.frame now =>
    if s.requestedAnimationFrame then
      match updatePosition C.P C.E now { s with requestedAnimationFrame := false } d with
      | (s1, d1, fx) => ⟨s1, d1, fx, false⟩
    else ⟨s, d, [], false⟩
  | Ev.release => handleDragEnd C.P C.E s d

/-- Run a sequence of events, concatenating effects and latching faults. -/
def runEvents (C : Cfg) : List Ev → ItemState → Dom → StepResult
  | [], s, d => ⟨s, d, [], false⟩
  | e :: es, s, d =>
    match step C s d e with
    | ⟨s1, d1, fx1, f1⟩ =>
      match runEvents C es s1 d1 with
      | ⟨s2, d2, fx2, f2⟩ => ⟨s2, d2, fx1 ++ fx2, f1 || f2⟩

/-- The instance fields right after the constructor ran. -/
def initState : ItemState :=
  ⟨⟨-1, -1⟩, DragDirection.unknown, 0, 0, 0, false⟩

/-- The style surface before the engine ever writes to it. -/
def initDom : Dom := ⟨0, none, none⟩

/-- The surface produced by `render` (lines 606-638): the `contentLeft`
panel div exists iff `swipeLeft` is provided, and `contentRight` iff
`swipeRight` is provided; `listElement` is always rendered. -/
def envOfProps (P : Props) (width : ℤ) : Env :=
  ⟨true, width, P.swipeLeft.isSome, P.swipeRight.isSome⟩

/-- Run a freshly mounted item (surface derived from the props by `render`)
on a sequence of events. -/
def runItem (P : Props) (width : ℤ) (evs : List Ev) : StepResult :=
  runEvents ⟨P, envOfProps P width⟩ evs initState initDom

/-! ### Concrete fixtures used by witnesses and counterexamples -/

/-- Both actions configured (left action plays `REMOVE`), all callbacks
registered, every threshold left to its default. -/
def propsBothPanels : Props :=
  { blockSwipe := false
    swipeLeft := some ⟨true, some ActionAnimation.REMOVE⟩
    swipeRight := some ⟨true, none⟩
    swipeStartThreshold := none
    scrollStartThreshold := none
    threshold := none
    hasOnSwipeStart := true
    hasOnSwipeEnd := true
    hasOnSwipeProgress := true }

/-- Like `propsBothPanels` but without a progress callback. -/
def propsBothNoProgress : Props :=
  { propsBothPanels with hasOnSwipeProgress := false }

/-- Only a right action configured (no `swipeLeft`). -/
def propsRightOnly : Props :=
  { propsBothPanels with swipeLeft := none, hasOnSwipeProgress := false }

/-! ### Claims -/

/-- C10: a `swipeStartThreshold` or `scrollStartThreshold` explicitly set
to `0` is replaced by the built-in default `10` (the `||` defaulting), and
the effective threshold is never `0`. -/
theorem c10_zero_threshold_uses_default (P : Props) :
    (P.swipeStartThreshold = some 0 → dragHorizontalDirectionThreshold P = 10) ∧
    (P.scrollStartThreshold = some 0 → dragVerticalDirectionThreshold P = 10) ∧
    dragHorizontalDirectionThreshold P ≠ 0 ∧
    dragVerticalDirectionThreshold P ≠ 0 := by
  refine ⟨fun h => by simp [dragHorizontalDirectionThreshold, h],
    fun h => by simp [dragVerticalDirectionThreshold, h], ?_, ?_⟩
  · unfold dragHorizontalDirectionThreshold
    cases h : P.swipeStartThreshold with
    | none => simp
    | some v =>
      by_cases hv : v = 0 <;> simp [hv]
  · unfold dragVerticalDirectionThreshold
    cases h : P.scrollStartThreshold with
    | none => simp
    | some v =>
      by_cases hv : v = 0 <;> simp [hv]

/-- Witness for C10 at a props record with both thresholds set to `0`. -/
theorem c10_zero_threshold_uses_default_witness :
    dragHorizontalDirectionThreshold
        { propsBothPanels with swipeStartThreshold := some 0, scrollStartThreshold := some 0 } = 10 ∧
    dragVerticalDirectionThreshold
        { propsBothPanels with swipeStartThreshold := some 0, scrollStartThreshold := some 0 } = 10 :=
  ⟨(c10_zero_threshold_uses_default _).1 rfl,
    (c10_zero_threshold_uses_default _).2.1 rfl⟩

/-- C7: when only one reveal panel exists and the offset sign would reveal
the absent one, the offset is clamped to `0` and the existing panel is
chosen; a panel that is not mounted is never the chosen one. -/
theorem c7_single_panel_clamped :
    (∀ (E : Env) (l : ℤ), onlyLeftContent E = true → 0 < l →
      clampAndChoose E l = (0, some Panel.leftPanel)) ∧
    (∀ (E : Env) (l : ℤ), onlyRightContent E = true → l < 0 →
      clampAndChoose E l = (0, some Panel.rightPanel)) ∧
    (∀ (E : Env) (l : ℤ), (clampAndChoose E l).2 = some Panel.leftPanel →
      E.contentLeft = true) ∧
    (∀ (E : Env) (l : ℤ), (clampAndChoose E l).2 = some Panel.rightPanel →
      E.contentRight = true) := by
  refine ⟨?_, ?_, ?_, ?_⟩
  · intro E l hOnly hl
    have hcl : E.contentLeft = true := by
      simp [onlyLeftContent, Bool.and_eq_true] at hOnly; exact hOnly.1
    simp [clampAndChoose, hOnly, hl, contentLeftRef, hcl,
      onlyRightContent, by simpa [onlyLeftContent, Bool.and_eq_true] using hOnly]
  · intro E l hOnly hl
    have hcr : E.contentRight = true := by
      simp [onlyRightContent, Bool.and_eq_true] at hOnly; exact hOnly.2
    have hncl : E.contentLeft = false := by
      simp [onlyRightContent, Bool.and_eq_true] at hOnly; exact hOnly.1
    have hnOnlyL : onlyLeftContent E = false := by
      simp [onlyLeftContent, hncl]
    simp [clampAndChoose, hOnly, hl, hnOnlyL, contentRightRef, hcr, contentLeftRef, hncl]
  · intro E l h
    by_cases hcl : E.contentLeft = true
    · exact hcl
    · exfalso
      simp only [Bool.not_eq_true] at hcl
      unfold clampAndChoose contentLeftRef contentRightRef onlyLeftContent onlyRightContent at h
      simp only [hcl] at h
      split_ifs at h <;> simp_all
  · intro E l h
    by_cases hcr : E.contentRight = true
    · exact hcr
    · exfalso
      simp only [Bool.not_eq_true] at hcr
      unfold clampAndChoose contentLeftRef contentRightRef onlyLeftContent onlyRightContent at h
      simp only [hcr] at h
      split_ifs at h <;> simp_all

/-- Witness for C7: only the left panel mounted and a positive offset. -/
theorem c7_single_panel_clamped_witness :
    clampAndChoose ⟨true, 200, true, false⟩ 50 = (0, some Panel.leftPanel) ∧
    Env.contentLeft ⟨true, 200, true, false⟩ = true :=
  ⟨c7_single_panel_clamped.1 ⟨true, 200, true, false⟩ 50 (by decide) (by decide),
    c7_single_panel_clamped.2.2.1 ⟨true, 200, true, false⟩ 50
      (by decide)⟩

/-- C2 (counterexample): the claim binds a negative offset to the
"right content" panel (the one configured via `swipeRight`).  Running a
horizontal gesture to offset `-50` with both panels mounted, the executed
refresh reveals the LEFT content panel (its opacity is set to `0.50`) and
forces the right panel's opacity to `0`; the right panel is never the
revealed one. -/
theorem c2_reveal_binding_counterexample :
    (runItem propsBothNoProgress 200
        [Ev.start ⟨0, 0⟩ 0, Ev.touchMove ⟨-50, 0⟩ true, Ev.frame 100]).fx =
      [Effect.swipeStartCb, Effect.transform (-50),
        Effect.opacity Panel.leftPanel (OpacityStr.fixed2 (1 / 2)),
        Effect.opacity Panel.rightPanel OpacityStr.plain0] ∧
    Effect.opacity Panel.rightPanel (OpacityStr.fixed2 (1 / 2)) ∉
      (runItem propsBothNoProgress 200
        [Ev.start ⟨0, 0⟩ 0, Ev.touchMove ⟨-50, 0⟩ true, Ev.frame 100]).fx := by
  decide

/-- C2 (amended): with both panels mounted, the panel chosen to be revealed
by a refresh is determined by the sign of the offset with the OPPOSITE
binding to the claim's: a negative offset reveals the "left content" panel
(configured via `swipeLeft`) and a non-negative offset reveals the "right
content" panel (configured via `swipeRight`); the offset is not clamped. -/
theorem c2_reveal_binding_amended (E : Env) (l : ℤ)
    (hL : E.contentLeft = true) (hR : E.contentRight = true) :
    clampAndChoose E l =
      (l, some (if l < 0 then Panel.leftPanel else Panel.rightPanel)) := by
  have h1 : onlyLeftContent E = false := by simp [onlyLeftContent, hR]
  have h2 : onlyRightContent E = false := by simp [onlyRightContent, hL]
  by_cases hl : l < 0 <;>
    simp [clampAndChoose, h1, h2, hl, contentLeftRef, contentRightRef, hL, hR]

/-- Witness for the amended C2 at offset `-50` with both panels. -/
theorem c2_reveal_binding_amended_witness :
    clampAndChoose ⟨true, 200, true, true⟩ (-50) = (-50, some Panel.leftPanel) := by
  have h := c2_reveal_binding_amended ⟨true, 200, true, true⟩ (-50) rfl rfl
  simpa using h

/-- Shared helper: `round` of a rational in `[0, 100]` stays in `[0, 100]`. -/
lemma round_nonneg_le_hundred (x : ℚ) (h0 : 0 ≤ x) (h1 : x ≤ 100) :
    0 ≤ round x ∧ round x ≤ 100 := by
  rw [round_eq]
  constructor
  · have hz : (0 : ℤ) = ⌊(1 : ℚ) / 2⌋ := by norm_num
    rw [hz]
    exact Int.floor_le_floor (by linarith)
  · have h2 : ⌊x + 1 / 2⌋ ≤ ⌊(100 : ℚ) + 1 / 2⌋ := Int.floor_le_floor (by linarith)
    have h3 : ⌊(100 : ℚ) + 1 / 2⌋ = 100 := by
      rw [add_comm, show ((100 : ℚ)) = ((100 : ℤ) : ℚ) by norm_num, Int.floor_add_int]
      norm_num
    omega

/-- Shared helper: with a nonzero width the computed progress percentage is
an integer in `[0, 100]`. -/
lemma swipeDistancePercentOf_range (w l prev : ℤ) (hw : w ≠ 0) :
    0 ≤ swipeDistancePercentOf w l prev ∧ swipeDistancePercentOf w l prev ≤ 100 := by
  have hform : swipeDistancePercentOf w l prev =
      100 - round ((100 * ((max 0 (w - |l|) : ℤ)) : ℚ) / (w : ℚ)) := by
    simp [swipeDistancePercentOf, hw]
  rw [hform]
  rcases lt_or_gt_of_ne hw with hneg | hpos
  · have habs : (0 : ℤ) ≤ |l| := abs_nonneg l
    have hd : max 0 (w - |l|) = 0 := max_eq_left (by omega)
    rw [hd]
    norm_num
  · have habs : (0 : ℤ) ≤ |l| := abs_nonneg l
    have hd0 : (0 : ℤ) ≤ max 0 (w - |l|) := le_max_left 0 _
    have hdw : max 0 (w - |l|) ≤ w := max_le (le_of_lt hpos) (by omega)
    have hwq : (0 : ℚ) < (w : ℚ) := by exact_mod_cast hpos
    have hx0 : (0 : ℚ) ≤ (100 * ((max 0 (w - |l|) : ℤ)) : ℚ) / (w : ℚ) := by
      apply div_nonneg _ (le_of_lt hwq)
      positivity
    have hx1 : (100 * ((max 0 (w - |l|) : ℤ)) : ℚ) / (w : ℚ) ≤ 100 := by
      rw [div_le_iff₀ hwq]
      have : ((max 0 (w - |l|) : ℤ) : ℚ) ≤ (w : ℚ) := by exact_mod_cast hdw
      nlinarith
    have := round_nonneg_le_hundred _ hx0 hx1
    omega

/-- Shared helper: the transform piece emits no progress effect. -/
lemma progress_not_mem_transformPiece (E : Env) (d : Dom) (left : ℤ) (n : ℤ) :
    Effect.progress n ∉ (transformPiece E d left).2 := by
  unfold transformPiece
  split <;> simp

/-- Shared helper: the opacity piece emits no progress effect. -/
lemma progress_not_mem_opacityPiece (E : Env) (panel : Panel) (left : ℤ)
    (d : Dom) (n : ℤ) :
    Effect.progress n ∉ (opacityPiece E panel left d).2 := by
  unfold opacityPiece
  cases hh : contentToHideOf E left <;>
    by_cases hc : toFixed2 ((|left| : ℚ) / 100) < 1 ∧
        d.panelOpacity panel ≠ some (OpacityStr.fixed2 (toFixed2 ((|left| : ℚ) / 100))) <;>
      by_cases hge : toFixed2 ((|left| : ℚ) / 100) ≥ 1 <;>
        simp [hh, hc, hge]

/-- Shared helper: a progress effect emitted by the progress piece carries
the freshly computed percentage, which differs from the previous one. -/
lemma progress_mem_progressPiece (P : Props) (E : Env) (left prev n : ℤ)
    (h : Effect.progress n ∈ (progressPiece P E left prev).2) :
    n = swipeDistancePercentOf E.offsetWidth left prev ∧ n ≠ prev := by
  unfold progressPiece at h
  split at h
  · simp only [] at h
    split at h <;> simp_all
    omega
  · simp_all

/-- Shared helper: a progress effect emitted by `updatePosition` carries
exactly the freshly computed percentage, and only when it differs from the
previously reported one. -/
lemma progress_mem_updatePosition (P : Props) (E : Env) (now : ℤ)
    (s : ItemState) (d : Dom) (n : ℤ)
    (h : Effect.progress n ∈ (updatePosition P E now s d).2.2) :
    n = swipeDistancePercentOf E.offsetWidth (clampAndChoose E s.left).1
        s.previousSwipeDistancePercent ∧
    n ≠ s.previousSwipeDistancePercent := by
  unfold updatePosition at h
  split at h
  case isFalse => simp at h
  case isTrue =>
    split at h
    next left heq => simp at h
    next left panel heq =>
      split at h
      next d1 fx1 h1 =>
        split at h
        next prev2 fx2 h2 =>
          split at h
          next d4 fx34 h34 =>
            simp only [List.mem_append] at h
            have hfx1 : Effect.progress n ∉ fx1 := by
              have := progress_not_mem_transformPiece E d left n
              rw [h1] at this
              exact this
            have hfx34 : Effect.progress n ∉ fx34 := by
              have := progress_not_mem_opacityPiece E panel left d1 n
              rw [h34] at this
              exact this
            have hfx2 : Effect.progress n ∈ fx2 := by tauto
            have hmem : Effect.progress n ∈
                (progressPiece P E left s.previousSwipeDistancePercent).2 := by
              rw [h2]
              exact hfx2
            have := progress_mem_progressPiece P E left
              s.previousSwipeDistancePercent n hmem
            rw [heq]
            exact this

/-- C3 (counterexample): the claim's formula
`round(100 × (1 − max(0, w − |f|) / w))` rounds half-integers up, while the
code computes `100 − round(100 × max(0, w − |f|) / w)`.  At width 200 and
offset −195 an executed refresh reports progress 97, but the claim's
formula yields 98. -/
theorem c3_progress_formula_counterexample :
    Effect.progress 97 ∈ (runItem propsBothPanels 200
        [Ev.start ⟨0, 0⟩ 0, Ev.touchMove ⟨-195, 0⟩ true, Ev.frame 100]).fx ∧
    Effect.progress 98 ∉ (runItem propsBothPanels 200
        [Ev.start ⟨0, 0⟩ 0, Ev.touchMove ⟨-195, 0⟩ true, Ev.frame 100]).fx ∧
    round ((100 : ℚ) * (1 - (max 0 ((200 : ℚ) - |(-195 : ℚ)|)) / 200)) = 98 := by
  refine ⟨by decide, by decide, by decide⟩

/-- C3 (amended): the progress reported by an executed refresh with width
`w ≠ 0` and offset `f` equals `100 − round(100 × max(0, w − |f|) / w)`
(which differs from the claim's `round(100 × (1 − max(0, w − |f|) / w))`
at exact half-ties); with `w = 0` the previous value is kept; every emitted
progress value is an integer in `[0, 100]` and differs from the previously
reported one. -/
theorem c3_progress_values (P : Props) (E : Env) (now : ℤ)
    (s : ItemState) (d : Dom) (n : ℤ)
    (h : Effect.progress n ∈ (updatePosition P E now s d).2.2) :
    (∀ w l prev : ℤ, w ≠ 0 → swipeDistancePercentOf w l prev =
      100 - round ((100 * (max 0 (w - |l|) : ℤ) : ℚ) / (w : ℚ))) ∧
    (∀ l prev : ℤ, swipeDistancePercentOf 0 l prev = prev) ∧
    (n = swipeDistancePercentOf E.offsetWidth (clampAndChoose E s.left).1
        s.previousSwipeDistancePercent ∧
      n ≠ s.previousSwipeDistancePercent ∧ 0 ≤ n ∧ n ≤ 100) := by
  obtain ⟨hn, hne⟩ := progress_mem_updatePosition P E now s d n h
  have hform : ∀ w l prev : ℤ, w ≠ 0 → swipeDistancePercentOf w l prev =
      100 - round ((100 * (max 0 (w - |l|) : ℤ) : ℚ) / (w : ℚ)) := by
    intro w l prev hw
    simp [swipeDistancePercentOf, hw]
  have hzero : ∀ l prev : ℤ, swipeDistancePercentOf 0 l prev = prev := by
    intro l prev
    simp [swipeDistancePercentOf]
  refine ⟨hform, hzero, hn, hne, ?_⟩
  by_cases hw : E.offsetWidth = 0
  · exfalso
    rw [hw, hzero] at hn
    exact hne hn
  · have := swipeDistancePercentOf_range E.offsetWidth
      (clampAndChoose E s.left).1 s.previousSwipeDistancePercent hw
    omega

/-- Witness for C3's amended theorem: the executed refresh of the
counterexample trace, whose emitted progress value is 97. -/
theorem c3_progress_values_witness :
    Effect.progress 97 ∈
      (updatePosition propsBothPanels (envOfProps propsBothPanels 200) 100
        ⟨⟨0, 0⟩, DragDirection.left, -195, 0, 0, false⟩ initDom).2.2 ∧
    (97 : ℤ) = swipeDistancePercentOf 200
        (clampAndChoose (envOfProps propsBothPanels 200) (-195)).1 0 := by
  have h : Effect.progress 97 ∈
      (updatePosition propsBothPanels (envOfProps propsBothPanels 200) 100
        ⟨⟨0, 0⟩, DragDirection.left, -195, 0, 0, false⟩ initDom).2.2 := by decide
  have h2 := c3_progress_values propsBothPanels (envOfProps propsBothPanels 200) 100
    ⟨⟨0, 0⟩, DragDirection.left, -195, 0, 0, false⟩ initDom 97 h
  exact ⟨h, h2.2.2.1⟩

/-- An effect that writes a style property (transform or opacity), as
opposed to invoking a callback or an action. -/
def Effect.isStyleWrite : Effect → Bool
  | Effect.transform _ => true
  | Effect.opacity _ _ => true
  | _ => false

/-- Shared helper: the effects of the return animation, by case on which
elements are mounted. -/
lemma playReturnAnimation_fx (E : Env) (d : Dom) :
    (playReturnAnimation E d).2 =
      (if E.listElement = true then [Effect.transform 0] else []) ++
      (if E.contentLeft = true then
        [Effect.opacity Panel.leftPanel OpacityStr.plain0] else []) ++
      (if E.contentRight = true then
        [Effect.opacity Panel.rightPanel OpacityStr.plain0] else []) := by
  unfold playReturnAnimation
  by_cases h1 : E.listElement = true <;>
    by_cases h2 : E.contentLeft = true <;>
      by_cases h3 : E.contentRight = true <;>
        simp [h1, h2, h3]

/-- Shared helper: the return animation only writes styles. -/
lemma playReturnAnimation_styleOnly (E : Env) (d : Dom) :
    ∀ x ∈ (playReturnAnimation E d).2, x.isStyleWrite = true := by
  intro x hx
  rw [playReturnAnimation_fx] at hx
  simp only [List.mem_append] at hx
  rcases hx with (hx | hx) | hx <;>
    split at hx <;> simp_all [Effect.isStyleWrite]

/-- Shared helper: the remove animation only writes styles. -/
lemma playRemoveAnimation_styleOnly (E : Env) (dir : DragDirection) (d : Dom) :
    ∀ x ∈ (playRemoveAnimation E dir d).2, x.isStyleWrite = true := by
  intro x hx
  unfold playRemoveAnimation at hx
  split at hx <;> simp_all [Effect.isStyleWrite]

/-- Shared helper: an action's outcome animation only writes styles. -/
lemma playActionAnimation_styleOnly (E : Env) (t : Option ActionAnimation)
    (dir : DragDirection) (d : Dom) :
    ∀ x ∈ (playActionAnimation E t dir d).2, x.isStyleWrite = true := by
  intro x hx
  unfold playActionAnimation at hx
  split at hx
  · split at hx
    · exact playRemoveAnimation_styleOnly E dir d x hx
    · simp at hx
    · exact playReturnAnimation_styleOnly E d x hx
  · simp at hx

/-- Shared helper: a non-style effect has count zero in a style-only list. -/
lemma count_eq_zero_of_styleOnly (l : List Effect)
    (hst : ∀ x ∈ l, x.isStyleWrite = true) (e : Effect)
    (he : e.isStyleWrite = false) : l.count e = 0 := by
  rw [List.count_eq_zero]
  intro hmem
  have := hst e hmem
  rw [he] at this
  exact Bool.false_ne_true this

/-- C1: for a gesture classified horizontal released with final offset
`s.left`, width `w` and trigger ratio `t` (both actions configured): the
left action fires exactly once iff `s.left < w*t*(-1)`, else the right
action fires exactly once iff `s.left > w*t`, else no action fires and the
return animation applies (transform 0, opacity 0 on every mounted panel);
`onSwipeEnd` fires exactly once when registered; a `REMOVE` outcome on the
left action translates to `-w`; the handler does not fault. -/
theorem c1_end_of_drag_resolution (P : Props) (E : Env) (s : ItemState) (d : Dom)
    (la ra : SwipeAction)
    (hsw : isSwiping P s = true)
    (hle : E.listElement = true)
    (hL : P.swipeLeft = some la) (hR : P.swipeRight = some ra)
    (haL : la.hasAction = true) (haR : ra.hasAction = true) :
    ((handleDragEnd P E s d).fx.count Effect.actionLeft =
      if (s.left : ℚ) < (E.offsetWidth : ℚ) * P.threshold.getD (1 / 2) * (-1)
        then 1 else 0) ∧
    ((handleDragEnd P E s d).fx.count Effect.actionRight =
      if ¬((s.left : ℚ) < (E.offsetWidth : ℚ) * P.threshold.getD (1 / 2) * (-1)) ∧
          (s.left : ℚ) > (E.offsetWidth : ℚ) * P.threshold.getD (1 / 2)
        then 1 else 0) ∧
    (P.hasOnSwipeEnd = true →
      (handleDragEnd P E s d).fx.count Effect.swipeEndCb = 1) ∧
    ((s.left : ℚ) < (E.offsetWidth : ℚ) * P.threshold.getD (1 / 2) * (-1) →
      la.actionAnimation = some ActionAnimation.REMOVE →
      Effect.transform (E.offsetWidth * (-1)) ∈ (handleDragEnd P E s d).fx) ∧
    (¬((s.left : ℚ) < (E.offsetWidth : ℚ) * P.threshold.getD (1 / 2) * (-1)) →
      ¬((s.left : ℚ) > (E.offsetWidth : ℚ) * P.threshold.getD (1 / 2)) →
      Effect.transform 0 ∈ (handleDragEnd P E s d).fx ∧
      (E.contentLeft = true →
        Effect.opacity Panel.leftPanel OpacityStr.plain0 ∈ (handleDragEnd P E s d).fx) ∧
      (E.contentRight = true →
        Effect.opacity Panel.rightPanel OpacityStr.plain0 ∈ (handleDragEnd P E s d).fx)) ∧
    (handleDragEnd P E s d).faulted = false := by
  have hfxL : handleSwipedLeft P = [Effect.actionLeft] := by
    simp [handleSwipedLeft, hL, haL]
  have hfxR : handleSwipedRight P = [Effect.actionRight] := by
    simp [handleSwipedRight, hR, haR]
  by_cases hlt : (s.left : ℚ) < (E.offsetWidth : ℚ) * P.threshold.getD (1 / 2) * (-1)
  · have hr : handleDragEnd P E s d =
        ⟨resetState s, (playActionAnimation E la.actionAnimation DragDirection.left d).1,
          (playActionAnimation E la.actionAnimation DragDirection.left d).2 ++
            [Effect.actionLeft] ++
            (if P.hasOnSwipeEnd then [Effect.swipeEndCb] else []), false⟩ := by
      simp only [handleDragEnd]
      rw [if_pos hsw, if_pos ⟨hle, hlt⟩, hL, hfxL]
    have hz1 := count_eq_zero_of_styleOnly _
      (playActionAnimation_styleOnly E la.actionAnimation DragDirection.left d)
      Effect.actionLeft rfl
    have hz2 := count_eq_zero_of_styleOnly _
      (playActionAnimation_styleOnly E la.actionAnimation DragDirection.left d)
      Effect.actionRight rfl
    have hz3 := count_eq_zero_of_styleOnly _
      (playActionAnimation_styleOnly E la.actionAnimation DragDirection.left d)
      Effect.swipeEndCb rfl
    refine ⟨?_, ?_, ?_, ?_, ?_, ?_⟩
    · rw [if_pos hlt, hr]
      by_cases hEnd : P.hasOnSwipeEnd = true <;>
        simp [hEnd, List.count_append, hz1]
    · rw [if_neg (fun hcon => hcon.1 hlt), hr]
      by_cases hEnd : P.hasOnSwipeEnd = true <;>
        simp [hEnd, List.count_append, hz2]
    · intro hEnd
      rw [hr]
      simp [hEnd, List.count_append, hz3]
    · intro _ hanim
      rw [hr]
      simp only [StepResult.fx, List.mem_append]
      left; left
      simp [playActionAnimation, hle, hanim, playRemoveAnimation]
    · intro h _
      exact absurd hlt h
    · rw [hr]
  · by_cases hgt : (s.left : ℚ) > (E.offsetWidth : ℚ) * P.threshold.getD (1 / 2)
    · have hr : handleDragEnd P E s d =
          ⟨resetState s, (playActionAnimation E ra.actionAnimation DragDirection.right d).1,
            (playActionAnimation E ra.actionAnimation DragDirection.right d).2 ++
              [Effect.actionRight] ++
              (if P.hasOnSwipeEnd then [Effect.swipeEndCb] else []), false⟩ := by
        simp only [handleDragEnd]
        rw [if_pos hsw, if_neg (fun hcon => hlt hcon.2), if_pos ⟨hle, hgt⟩, hR, hfxR]
      have hz1 := count_eq_zero_of_styleOnly _
        (playActionAnimation_styleOnly E ra.actionAnimation DragDirection.right d)
        Effect.actionLeft rfl
      have hz2 := count_eq_zero_of_styleOnly _
        (playActionAnimation_styleOnly E ra.actionAnimation DragDirection.right d)
        Effect.actionRight rfl
      have hz3 := count_eq_zero_of_styleOnly _
        (playActionAnimation_styleOnly E ra.actionAnimation DragDirection.right d)
        Effect.swipeEndCb rfl
      refine ⟨?_, ?_, ?_, ?_, ?_, ?_⟩
      · rw [if_neg hlt, hr]
        by_cases hEnd : P.hasOnSwipeEnd = true <;>
          simp [hEnd, List.count_append, hz1]
      · rw [if_pos ⟨hlt, hgt⟩, hr]
        by_cases hEnd : P.hasOnSwipeEnd = true <;>
          simp [hEnd, List.count_append, hz2]
      · intro hEnd
        rw [hr]
        simp [hEnd, List.count_append, hz3]
      · intro h _
        exact absurd h hlt
      · intro _ h
        exact absurd hgt h
      · rw [hr]
    · have hr : handleDragEnd P E s d =
          ⟨resetState s, (playReturnAnimation E d).1,
            (if P.hasOnSwipeEnd then [Effect.swipeEndCb] else []) ++
              (playReturnAnimation E d).2, false⟩ := by
        simp only [handleDragEnd]
        rw [if_pos hsw, if_neg (fun hcon => hlt hcon.2), if_neg (fun hcon => hgt hcon.2)]
      have hz1 := count_eq_zero_of_styleOnly _
        (playReturnAnimation_styleOnly E d) Effect.actionLeft rfl
      have hz2 := count_eq_zero_of_styleOnly _
        (playReturnAnimation_styleOnly E d) Effect.actionRight rfl
      have hz3 := count_eq_zero_of_styleOnly _
        (playReturnAnimation_styleOnly E d) Effect.swipeEndCb rfl
      refine ⟨?_, ?_, ?_, ?_, ?_, ?_⟩
      · rw [if_neg hlt, hr]
        by_cases hEnd : P.hasOnSwipeEnd = true <;>
          simp [hEnd, List.count_append, hz1]
      · rw [if_neg (fun hcon => hgt hcon.2), hr]
        by_cases hEnd : P.hasOnSwipeEnd = true <;>
          simp [hEnd, List.count_append, hz2]
      · intro hEnd
        rw [hr]
        simp [hEnd, List.count_append, hz3]
      · intro h _
        exact absurd h hlt
      · intro _ _
        rw [hr]
        simp only [StepResult.fx, List.mem_append, playReturnAnimation_fx, hle]
        refine ⟨by simp, fun hcl => by simp [hcl], fun hcr => by simp [hcr]⟩
      · rw [hr]

/-- Witness for C1: width 200, ratio 0.5, release at offset −101 with a
configured left action whose animation is `REMOVE`: exactly one left-action
invocation, one `onSwipeEnd`, and a transform to −200. -/
theorem c1_end_of_drag_resolution_witness :
    ((handleDragEnd propsBothPanels (envOfProps propsBothPanels 200)
        ⟨⟨0, 0⟩, DragDirection.left, -101, 0, 0, false⟩ initDom).fx.count
      Effect.actionLeft =
      if ((-101 : ℤ) : ℚ) < ((200 : ℤ) : ℚ) *
          (propsBothPanels.threshold.getD (1 / 2)) * (-1) then 1 else 0) ∧
    Effect.transform (200 * (-1)) ∈
      (handleDragEnd propsBothPanels (envOfProps propsBothPanels 200)
        ⟨⟨0, 0⟩, DragDirection.left, -101, 0, 0, false⟩ initDom).fx := by
  have h := c1_end_of_drag_resolution propsBothPanels (envOfProps propsBothPanels 200)
    ⟨⟨0, 0⟩, DragDirection.left, -101, 0, 0, false⟩ initDom
    ⟨true, some ActionAnimation.REMOVE⟩ ⟨true, none⟩
    (by decide) rfl rfl rfl rfl rfl
  exact ⟨h.1, h.2.2.2.1 (by decide) rfl⟩

/-- Shared helper: classification is a no-op once the direction is known. -/
lemma setDragDirection_resolved (P : Props) (E : Env) (x y : ℤ) (s : ItemState)
    (h : s.dragDirection ≠ DragDirection.unknown) :
    setDragDirection P E x y s = (s, []) := by
  unfold setDragDirection
  rw [if_neg]
  simp [h]

/-- Shared helper: requesting a frame never touches the drag direction. -/
lemma scheduleUpdatePosition_dragDirection (s : ItemState) :
    (scheduleUpdatePosition s).dragDirection = s.dragDirection := by
  unfold scheduleUpdatePosition
  split <;> rfl

/-- Shared helper: a touch move never changes an already-classified
direction. -/
lemma handleTouchMove_dir_sticky (P : Props) (E : Env) (p : Point) (c : Bool)
    (s : ItemState) (h : s.dragDirection ≠ DragDirection.unknown) :
    (handleTouchMove P E p c s).1.dragDirection = s.dragDirection := by
  unfold handleTouchMove
  by_cases hs : dragStartedWithinItem s = true
  · rw [if_pos hs, setDragDirection_resolved P E p.x p.y s h]
    by_cases hc : (!c) = true
    · simp [hc]
    · by_cases hw : isSwiping P s = true <;>
        simp [hc, hw, scheduleUpdatePosition_dragDirection]
  · rw [if_neg hs]

/-- Shared helper: a mouse move never changes an already-classified
direction. -/
lemma handleMouseMove_dir_sticky (P : Props) (E : Env) (p : Point)
    (s : ItemState) (h : s.dragDirection ≠ DragDirection.unknown) :
    (handleMouseMove P E p s).1.dragDirection = s.dragDirection := by
  unfold handleMouseMove
  by_cases hs : dragStartedWithinItem s = true
  · rw [if_pos hs, setDragDirection_resolved P E p.x p.y s h]
    by_cases hw : isSwiping P s = true <;>
      simp [hw, scheduleUpdatePosition_dragDirection]
  · rw [if_neg hs]

/-- Shared helper: a visual refresh never touches the drag direction. -/
lemma updatePosition_dragDirection (P : Props) (E : Env) (now : ℤ)
    (s : ItemState) (d : Dom) :
    (updatePosition P E now s d).1.dragDirection = s.dragDirection := by
  unfold updatePosition
  repeat' split
  all_goals rfl

/-- Shared helper: a refresh outside the frame budget, or of a gesture that
is not a horizontal swipe, changes nothing and emits nothing. -/
lemma updatePosition_skip (P : Props) (E : Env) (now : ℤ) (s : ItemState)
    (d : Dom)
    (h : ¬(((now - s.startTime : ℤ) : ℚ) > FPS_INTERVAL ∧ isSwiping P s = true)) :
    updatePosition P E now s d = (s, d, []) := by
  unfold updatePosition
  rw [if_neg h]

/-- Shared helper: a refresh of a non-swiping state changes nothing. -/
lemma updatePosition_not_swiping (P : Props) (E : Env) (now : ℤ)
    (s : ItemState) (d : Dom) (h : isSwiping P s = false) :
    updatePosition P E now s d = (s, d, []) := by
  apply updatePosition_skip
  intro hcon
  rw [h] at hcon
  exact Bool.false_ne_true hcon.2

/-- Shared helper: a non-faulting release resets the direction. -/
lemma handleDragEnd_dir_reset (P : Props) (E : Env) (s : ItemState) (d : Dom)
    (h : (handleDragEnd P E s d).faulted = false) :
    (handleDragEnd P E s d).s.dragDirection = DragDirection.unknown := by
  simp only [handleDragEnd] at h ⊢
  by_cases hsw : isSwiping P s = true
  · rw [if_pos hsw] at h ⊢
    by_cases h1 : E.listElement = true ∧
        (s.left : ℚ) < (E.offsetWidth : ℚ) * P.threshold.getD (1 / 2) * (-1)
    · rw [if_pos h1] at h ⊢
      cases hL : P.swipeLeft with
      | none =>
        rw [hL] at h
        simp at h
      | some sa =>
        rfl
    · rw [if_neg h1] at h ⊢
      by_cases h2 : E.listElement = true ∧
          (s.left : ℚ) > (E.offsetWidth : ℚ) * P.threshold.getD (1 / 2)
      · rw [if_pos h2] at h ⊢
        cases hR : P.swipeRight with
        | none =>
          rw [hR] at h
          simp at h
        | some sa =>
          rfl
      · rw [if_neg h2]
        rfl
  · rw [if_neg hsw]
    rfl

/-- C4: once a gesture's direction is classified (any non-Unknown value),
no later move event or visual refresh changes it; the direction returns to
Unknown only through the start of a new gesture or a (non-faulting)
release. -/
theorem c4_direction_one_shot :
    (∀ (P : Props) (E : Env) (p : Point) (c : Bool) (s : ItemState),
      s.dragDirection ≠ DragDirection.unknown →
      (handleTouchMove P E p c s).1.dragDirection = s.dragDirection) ∧
    (∀ (P : Props) (E : Env) (p : Point) (s : ItemState),
      s.dragDirection ≠ DragDirection.unknown →
      (handleMouseMove P E p s).1.dragDirection = s.dragDirection) ∧
    (∀ (P : Props) (E : Env) (now : ℤ) (s : ItemState) (d : Dom),
      (updatePosition P E now s d).1.dragDirection = s.dragDirection) ∧
    (∀ (p : Point) (now : ℤ) (s : ItemState) (d : Dom),
      (handleDragStart p now s d).s.dragDirection = DragDirection.unknown) ∧
    (∀ (P : Props) (E : Env) (s : ItemState) (d : Dom),
      (handleDragEnd P E s d).faulted = false →
      (handleDragEnd P E s d).s.dragDirection = DragDirection.unknown) :=
  ⟨handleTouchMove_dir_sticky, handleMouseMove_dir_sticky,
    updatePosition_dragDirection,
    fun p now s d => by
      unfold handleDragStart
      simp [scheduleUpdatePosition_dragDirection, resetState],
    handleDragEnd_dir_reset⟩

/-- Witness for C4: a touch move pointing straight up does not change a
direction already classified Left, and a release resets it. -/
theorem c4_direction_one_shot_witness :
    (handleTouchMove propsBothPanels (envOfProps propsBothPanels 200)
      ⟨0, -80⟩ true ⟨⟨0, 0⟩, DragDirection.left, -30, 0, 0, false⟩).1.dragDirection =
      DragDirection.left ∧
    (handleDragEnd propsBothPanels (envOfProps propsBothPanels 200)
      ⟨⟨0, 0⟩, DragDirection.left, -30, 0, 0, false⟩ initDom).s.dragDirection =
      DragDirection.unknown := by
  constructor
  · exact c4_direction_one_shot.1 propsBothPanels (envOfProps propsBothPanels 200)
      ⟨0, -80⟩ true ⟨⟨0, 0⟩, DragDirection.left, -30, 0, 0, false⟩ (by decide)
  · exact c4_direction_one_shot.2.2.2.2 propsBothPanels (envOfProps propsBothPanels 200)
      ⟨⟨0, 0⟩, DragDirection.left, -30, 0, 0, false⟩ initDom (by decide)

/-- Shared helper: the progress piece emits no transform effect. -/
lemma transform_not_mem_progressPiece (P : Props) (E : Env) (left prev : ℤ)
    (x : ℤ) : Effect.transform x ∉ (progressPiece P E left prev).2 := by
  unfold progressPiece
  split
  · simp only []
    split <;> simp
  · simp

/-- Shared helper: the opacity piece emits no transform effect. -/
lemma transform_not_mem_opacityPiece (E : Env) (panel : Panel) (left : ℤ)
    (d : Dom) (x : ℤ) :
    Effect.transform x ∉ (opacityPiece E panel left d).2 := by
  unfold opacityPiece
  cases hh : contentToHideOf E left <;>
    by_cases hc : toFixed2 ((|left| : ℚ) / 100) < 1 ∧
        d.panelOpacity panel ≠ some (OpacityStr.fixed2 (toFixed2 ((|left| : ℚ) / 100))) <;>
      by_cases hge : toFixed2 ((|left| : ℚ) / 100) ≥ 1 <;>
        simp [hh, hc, hge]

/-- Shared helper: a transform emitted by the transform piece carries the
offset it was given. -/
lemma transform_mem_transformPiece (E : Env) (d : Dom) (left x : ℤ)
    (h : Effect.transform x ∈ (transformPiece E d left).2) : x = left := by
  unfold transformPiece at h
  split at h <;> simp_all

/-- C5: (i) requesting a visual refresh while one is pending is a no-op,
(ii) a refresh does work only when more than `1000/60` ms elapsed since the
last executed refresh (or gesture start) and the gesture is still a
horizontal swipe — otherwise state, DOM and effects are untouched — and
(iii) a transform applied by an executed refresh is exactly the offset held
by the state the refresh produces: the most recent (possibly clamped)
offset, never an intermediate queued value. -/
theorem c5_throttling_and_latest_offset :
    (∀ s : ItemState, s.requestedAnimationFrame = true →
      scheduleUpdatePosition s = s) ∧
    (∀ (P : Props) (E : Env) (now : ℤ) (s : ItemState) (d : Dom),
      ¬(((now - s.startTime : ℤ) : ℚ) > FPS_INTERVAL ∧ isSwiping P s = true) →
      updatePosition P E now s d = (s, d, [])) ∧
    (∀ (P : Props) (E : Env) (now : ℤ) (s : ItemState) (d : Dom) (x : ℤ),
      Effect.transform x ∈ (updatePosition P E now s d).2.2 →
      x = (updatePosition P E now s d).1.left) := by
  refine ⟨?_, updatePosition_skip, ?_⟩
  · intro s h
    unfold scheduleUpdatePosition
    rw [if_pos h]
  · intro P E now s d x h
    by_cases hc : ((now - s.startTime : ℤ) : ℚ) > FPS_INTERVAL ∧ isSwiping P s = true
    · rcases hq : clampAndChoose E s.left with ⟨left, c⟩
      cases c with
      | none =>
        have hres : updatePosition P E now s d = ({ s with left := left }, d, []) := by
          unfold updatePosition
          rw [if_pos hc, hq]
        rw [hres] at h
        simp at h
      | some panel =>
        have hres : updatePosition P E now s d =
            ({ s with
                left := left
                previousSwipeDistancePercent :=
                  (progressPiece P E left s.previousSwipeDistancePercent).1
                startTime := now },
              (opacityPiece E panel left (transformPiece E d left).1).1,
              (transformPiece E d left).2 ++
                (progressPiece P E left s.previousSwipeDistancePercent).2 ++
                (opacityPiece E panel left (transformPiece E d left).1).2) := by
          unfold updatePosition
          rw [if_pos hc, hq]
        rw [hres] at h ⊢
        simp only [List.mem_append] at h
        have hfx2 := transform_not_mem_progressPiece P E left
          s.previousSwipeDistancePercent x
        have hfx34 := transform_not_mem_opacityPiece E panel left
          (transformPiece E d left).1 x
        have hfx1 : Effect.transform x ∈ (transformPiece E d left).2 := by tauto
        exact transform_mem_transformPiece E d left x hfx1
    · rw [updatePosition_skip P E now s d hc] at h
      simp at h

/-- Witness for C5: a pending request coalesces; a refresh 10 ms after the
previous one is skipped; the transform applied after two queued moves to
−30 then −50 carries −50, the final offset. -/
theorem c5_throttling_and_latest_offset_witness :
    scheduleUpdatePosition ⟨⟨0, 0⟩, DragDirection.left, -30, 0, 0, true⟩ =
      ⟨⟨0, 0⟩, DragDirection.left, -30, 0, 0, true⟩ ∧
    updatePosition propsBothPanels (envOfProps propsBothPanels 200) 10
      ⟨⟨0, 0⟩, DragDirection.left, -30, 0, 0, false⟩ initDom =
      (⟨⟨0, 0⟩, DragDirection.left, -30, 0, 0, false⟩, initDom, []) ∧
    ((-50 : ℤ) =
      (updatePosition propsBothPanels (envOfProps propsBothPanels 200) 100
        (runEvents ⟨propsBothPanels, envOfProps propsBothPanels 200⟩
          [Ev.start ⟨0, 0⟩ 0, Ev.touchMove ⟨-30, 0⟩ true, Ev.touchMove ⟨-50, 0⟩ true]
          initState initDom).s
        initDom).1.left) := by
  refine ⟨c5_throttling_and_latest_offset.1 _ rfl,
    c5_throttling_and_latest_offset.2.1 propsBothPanels
      (envOfProps propsBothPanels 200) 10
      ⟨⟨0, 0⟩, DragDirection.left, -30, 0, 0, false⟩ initDom (by decide), ?_⟩
  exact c5_throttling_and_latest_offset.2.2 propsBothPanels
    (envOfProps propsBothPanels 200) 100 _ initDom (-50) (by decide)

/-- Does this event end the gesture? -/
def Ev.isRelease : Ev → Bool
  | Ev.release => true
  | _ => false

/-- Is this event a mid-gesture event (a move or an animation frame)? -/
def Ev.isMidGesture : Ev → Bool
  | Ev.start _ _ => false
  | Ev.release => false
  | _ => true

/-- Shared helper: a state whose direction is not horizontal is not
swiping. -/
lemma isSwiping_eq_false_of_dir (P : Props) (s : ItemState)
    (hL : s.dragDirection ≠ DragDirection.left)
    (hR : s.dragDirection ≠ DragDirection.right) : isSwiping P s = false := by
  simp [isSwiping, hL, hR]

/-- Shared helper: `blockSwipe` forces `isSwiping()` to false on every
state. -/
lemma isSwiping_eq_false_of_blockSwipe (P : Props) (s : ItemState)
    (hb : P.blockSwipe = true) : isSwiping P s = false := by
  simp [isSwiping, hb]

/-- Shared helper: the octant switch classifies LEFT only when the left
panel is mounted, and RIGHT only when the right panel is mounted; otherwise
it leaves the direction unchanged or sets a vertical direction. -/
lemma classifyDirection_dir (P : Props) (E : Env) (x y : ℤ) (s : ItemState) :
    (classifyDirection P E x y s).dragDirection = s.dragDirection ∨
    ((classifyDirection P E x y s).dragDirection = DragDirection.right ∧
      E.contentRight = true) ∨
    ((classifyDirection P E x y s).dragDirection = DragDirection.left ∧
      E.contentLeft = true) ∨
    (classifyDirection P E x y s).dragDirection = DragDirection.down ∨
    (classifyDirection P E x y s).dragDirection = DragDirection.up := by
  unfold classifyDirection
  simp only []
  by_cases h0 : octant (x - s.dragStartPoint.x) (y - s.dragStartPoint.y) = 0
  · simp only [if_pos h0]
    by_cases hcr : E.contentRight = true <;>
      by_cases hd : dragHorizontalDirectionThreshold P < |x - s.dragStartPoint.x| <;>
        simp [hcr, hd]
  · simp only [if_neg h0]
    by_cases h123 : octant (x - s.dragStartPoint.x) (y - s.dragStartPoint.y) = 1 ∨
        octant (x - s.dragStartPoint.x) (y - s.dragStartPoint.y) = 2 ∨
        octant (x - s.dragStartPoint.x) (y - s.dragStartPoint.y) = 3
    · simp only [if_pos h123]
      by_cases hv : dragVerticalDirectionThreshold P < |y - s.dragStartPoint.y| <;>
        simp [hv]
    · simp only [if_neg h123]
      by_cases h4 : octant (x - s.dragStartPoint.x) (y - s.dragStartPoint.y) = 4
      · simp only [if_pos h4]
        by_cases hcl : E.contentLeft = true <;>
          by_cases hd : dragHorizontalDirectionThreshold P < |x - s.dragStartPoint.x| <;>
            simp [hcl, hd]
      · simp only [if_neg h4]
        by_cases hv : dragVerticalDirectionThreshold P < |y - s.dragStartPoint.y| <;>
          simp [hv]

/-- Shared helper: classification leaves the state unchanged or replaces it
by the octant switch's result. -/
lemma setDragDirection_state (P : Props) (E : Env) (x y : ℤ) (s : ItemState) :
    (setDragDirection P E x y s).1 = s ∨
    (setDragDirection P E x y s).1 = classifyDirection P E x y s := by
  unfold setDragDirection
  split_ifs <;> simp

/-- Shared helper: when the post-classification direction is not
horizontal, no `onSwipeStart` fires. -/
lemma setDragDirection_fx_empty (P : Props) (E : Env) (x y : ℤ) (s : ItemState)
    (hL : (setDragDirection P E x y s).1.dragDirection ≠ DragDirection.left)
    (hR : (setDragDirection P E x y s).1.dragDirection ≠ DragDirection.right) :
    (setDragDirection P E x y s).2 = [] := by
  unfold setDragDirection at hL hR ⊢
  by_cases hu : (s.dragDirection == DragDirection.unknown) = true
  case neg =>
    rw [if_neg hu]
  case pos =>
    rw [if_pos hu] at hL hR ⊢
    by_cases hth : |x - s.dragStartPoint.x| ≤ dragHorizontalDirectionThreshold P ∧
        |y - s.dragStartPoint.y| ≤ dragVerticalDirectionThreshold P
    case pos =>
      rw [if_pos hth]
    case neg =>
      rw [if_neg hth] at hL hR ⊢
      simp only [] at hL hR ⊢
      have hsw := isSwiping_eq_false_of_dir P (classifyDirection P E x y s) hL hR
      simp [hsw]

/-- Shared helper: `blockSwipe` suppresses the `onSwipeStart` effect. -/
lemma setDragDirection_fx_empty_blockSwipe (P : Props) (E : Env) (x y : ℤ)
    (s : ItemState) (hb : P.blockSwipe = true) :
    (setDragDirection P E x y s).2 = [] := by
  unfold setDragDirection
  split_ifs <;>
    simp [isSwiping_eq_false_of_blockSwipe P _ hb]

/-- Shared helper: a touch move whose resulting direction is not horizontal
emits nothing. -/
lemma handleTouchMove_fx_empty (P : Props) (E : Env) (p : Point) (c : Bool)
    (s : ItemState)
    (hL : (handleTouchMove P E p c s).1.dragDirection ≠ DragDirection.left)
    (hR : (handleTouchMove P E p c s).1.dragDirection ≠ DragDirection.right) :
    (handleTouchMove P E p c s).2 = [] := by
  unfold handleTouchMove at hL hR ⊢
  by_cases hs : dragStartedWithinItem s = true
  case neg =>
    rw [if_neg hs]
  case pos =>
    rw [if_pos hs] at hL hR ⊢
    simp only [] at hL hR ⊢
    by_cases hc : (!c) = true
    · rw [if_pos hc] at hL hR ⊢
      exact setDragDirection_fx_empty P E p.x p.y s hL hR
    · rw [if_neg hc] at hL hR ⊢
      by_cases hw : isSwiping P (setDragDirection P E p.x p.y s).1 = true
      · rw [if_pos hw] at hL hR ⊢
        simp only [scheduleUpdatePosition_dragDirection] at hL hR
        exact setDragDirection_fx_empty P E p.x p.y s hL hR
      · rw [if_neg hw] at hL hR ⊢
        exact setDragDirection_fx_empty P E p.x p.y s hL hR

/-- Shared helper: a mouse move whose resulting direction is not horizontal
emits nothing. -/
lemma handleMouseMove_fx_empty (P : Props) (E : Env) (p : Point)
    (s : ItemState)
    (hL : (handleMouseMove P E p s).1.dragDirection ≠ DragDirection.left)
    (hR : (handleMouseMove P E p s).1.dragDirection ≠ DragDirection.right) :
    (handleMouseMove P E p s).2 = [] := by
  unfold handleMouseMove at hL hR ⊢
  by_cases hs : dragStartedWithinItem s = true
  case neg =>
    rw [if_neg hs]
  case pos =>
    rw [if_pos hs] at hL hR ⊢
    simp only [] at hL hR ⊢
    by_cases hw : isSwiping P (setDragDirection P E p.x p.y s).1 = true
    · rw [if_pos hw] at hL hR ⊢
      simp only [scheduleUpdatePosition_dragDirection] at hL hR
      exact setDragDirection_fx_empty P E p.x p.y s hL hR
    · rw [if_neg hw] at hL hR ⊢
      exact setDragDirection_fx_empty P E p.x p.y s hL hR

/-- Shared helper: a fresh drag start leaves the direction Unknown. -/
lemma handleDragStart_dir (p : Point) (now : ℤ) (s : ItemState) (d : Dom) :
    (handleDragStart p now s d).s.dragDirection = DragDirection.unknown := by
  unfold handleDragStart
  simp [scheduleUpdatePosition_dragDirection, resetState]

/-- Shared helper: events other than a release never fault. -/
lemma step_not_faulted (C : Cfg) (s : ItemState) (d : Dom) (ev : Ev)
    (h : ev.isRelease = false) : (step C s d ev).faulted = false := by
  cases ev with
  | start p now => rfl
  | mouseMove p => rfl
  | touchMove p c => rfl
  | frame now =>
    simp only [step]
    split <;> rfl
  | release => simp [Ev.isRelease] at h

/-- Shared helper: mid-gesture events keep a classified direction. -/
lemma step_midgesture_dir (C : Cfg) (s : ItemState) (d : Dom) (ev : Ev)
    (hm : ev.isMidGesture = true) (hu : s.dragDirection ≠ DragDirection.unknown) :
    (step C s d ev).s.dragDirection = s.dragDirection := by
  cases ev with
  | start p now => simp [Ev.isMidGesture] at hm
  | release => simp [Ev.isMidGesture] at hm
  | mouseMove p => exact handleMouseMove_dir_sticky C.P C.E p s hu
  | touchMove p c => exact handleTouchMove_dir_sticky C.P C.E p c s hu
  | frame now =>
    simp only [step]
    split
    · exact updatePosition_dragDirection C.P C.E now _ d
    · rfl

/-- Shared helper: a mid-gesture event whose post-state direction is not
horizontal emits nothing. -/
lemma step_fx_empty_nonhorizontal (C : Cfg) (s : ItemState) (d : Dom) (ev : Ev)
    (hm : ev.isMidGesture = true)
    (hL : (step C s d ev).s.dragDirection ≠ DragDirection.left)
    (hR : (step C s d ev).s.dragDirection ≠ DragDirection.right) :
    (step C s d ev).fx = [] := by
  cases ev with
  | start p now => simp [Ev.isMidGesture] at hm
  | release => simp [Ev.isMidGesture] at hm
  | mouseMove p => exact handleMouseMove_fx_empty C.P C.E p s hL hR
  | touchMove p c => exact handleTouchMove_fx_empty C.P C.E p c s hL hR
  | frame now =>
    simp only [step] at hL hR ⊢
    by_cases hraf : s.requestedAnimationFrame = true
    · rw [if_pos hraf] at hL hR ⊢
      simp only [] at hL hR ⊢
      have hdir := updatePosition_dragDirection C.P C.E now
        { s with requestedAnimationFrame := false } d
      rw [hdir] at hL hR
      have hsw : isSwiping C.P { s with requestedAnimationFrame := false } = false :=
        isSwiping_eq_false_of_dir C.P _ hL hR
      rw [updatePosition_not_swiping C.P C.E now _ d hsw]
    · rw [if_neg hraf]

/-- Shared helper: one unfolding step of `runEvents`. -/
lemma runEvents_cons (C : Cfg) (e : Ev) (es : List Ev) (s : ItemState) (d : Dom) :
    runEvents C (e :: es) s d =
      ⟨(runEvents C es (step C s d e).s (step C s d e).d).s,
        (runEvents C es (step C s d e).s (step C s d e).d).d,
        (step C s d e).fx ++ (runEvents C es (step C s d e).s (step C s d e).d).fx,
        (step C s d e).faulted ||
          (runEvents C es (step C s d e).s (step C s d e).d).faulted⟩ := rfl

/-- Shared helper: over mid-gesture events, a classified direction is
preserved across the whole run. -/
lemma runEvents_dir_sticky (C : Cfg) (evs : List Ev) :
    ∀ (s : ItemState) (d : Dom), evs.all Ev.isMidGesture = true →
      s.dragDirection ≠ DragDirection.unknown →
      (runEvents C evs s d).s.dragDirection = s.dragDirection := by
  induction evs with
  | nil =>
    intro s d _ _
    rfl
  | cons e es ih =>
    intro s d hall hu
    simp only [List.all_cons, Bool.and_eq_true] at hall
    rw [runEvents_cons]
    have h1 := step_midgesture_dir C s d e hall.1 hu
    have h2 := ih (step C s d e).s (step C s d e).d hall.2 (by rw [h1]; exact hu)
    simp only []
    rw [h2, h1]

/-- Shared helper: a run of mid-gesture events whose final direction is not
horizontal emits nothing and never faults. -/
lemma runEvents_nonhorizontal (C : Cfg) (evs : List Ev) :
    ∀ (s : ItemState) (d : Dom), evs.all Ev.isMidGesture = true →
      (runEvents C evs s d).s.dragDirection ≠ DragDirection.left →
      (runEvents C evs s d).s.dragDirection ≠ DragDirection.right →
      (runEvents C evs s d).fx = [] ∧ (runEvents C evs s d).faulted = false := by
  induction evs with
  | nil =>
    intro s d _ _ _
    exact ⟨rfl, rfl⟩
  | cons e es ih =>
    intro s d hall hL hR
    simp only [List.all_cons, Bool.and_eq_true] at hall
    rw [runEvents_cons] at hL hR ⊢
    simp only [] at hL hR ⊢
    have hsL : (step C s d e).s.dragDirection ≠ DragDirection.left := by
      intro hh
      apply hL
      rw [runEvents_dir_sticky C es (step C s d e).s (step C s d e).d hall.2
        (by rw [hh]; simp)]
      exact hh
    have hsR : (step C s d e).s.dragDirection ≠ DragDirection.right := by
      intro hh
      apply hR
      rw [runEvents_dir_sticky C es (step C s d e).s (step C s d e).d hall.2
        (by rw [hh]; simp)]
      exact hh
    have hstep := step_fx_empty_nonhorizontal C s d e hall.1 hsL hsR
    have hfault := step_not_faulted C s d e
      (by cases e <;> simp_all [Ev.isMidGesture, Ev.isRelease])
    have hrec := ih (step C s d e).s (step C s d e).d hall.2 hL hR
    rw [hstep, hfault, hrec.1, hrec.2]
    simp

/-- Shared helper: a release of a non-swiping state plays only the return
animation after resetting. -/
lemma handleDragEnd_not_swiping (P : Props) (E : Env) (s : ItemState) (d : Dom)
    (h : isSwiping P s = false) :
    handleDragEnd P E s d =
      ⟨resetState s, (playReturnAnimation E d).1, (playReturnAnimation E d).2,
        false⟩ := by
  simp only [handleDragEnd]
  rw [if_neg (by simp [h])]

/-- C6 (amended): for a gesture (a run of move and frame events) whose
direction never resolves to horizontal, no effect at all is emitted during
the drag; on release no action fires, no `onSwipeStart`/`onSwipeEnd` fires
and the handler does not fault — but, contrary to the claim, the release is
NOT a no-op: it unconditionally applies the ReturnToRest animation
(transform 0 and opacity 0 on every mounted panel). -/
theorem c6_nonhorizontal_gesture (C : Cfg) (s : ItemState) (d : Dom)
    (evs : List Ev)
    (hm : evs.all Ev.isMidGesture = true)
    (hL : (runEvents C evs s d).s.dragDirection ≠ DragDirection.left)
    (hR : (runEvents C evs s d).s.dragDirection ≠ DragDirection.right) :
    (runEvents C evs s d).fx = [] ∧
    (handleDragEnd C.P C.E (runEvents C evs s d).s (runEvents C evs s d).d).fx =
      (playReturnAnimation C.E (runEvents C evs s d).d).2 ∧
    Effect.actionLeft ∉
      (handleDragEnd C.P C.E (runEvents C evs s d).s (runEvents C evs s d).d).fx ∧
    Effect.actionRight ∉
      (handleDragEnd C.P C.E (runEvents C evs s d).s (runEvents C evs s d).d).fx ∧
    Effect.swipeEndCb ∉
      (handleDragEnd C.P C.E (runEvents C evs s d).s (runEvents C evs s d).d).fx ∧
    (handleDragEnd C.P C.E (runEvents C evs s d).s (runEvents C evs s d).d).faulted
      = false := by
  have hrun := runEvents_nonhorizontal C evs s d hm hL hR
  have hsw : isSwiping C.P (runEvents C evs s d).s = false :=
    isSwiping_eq_false_of_dir C.P _ hL hR
  have hend := handleDragEnd_not_swiping C.P C.E (runEvents C evs s d).s
    (runEvents C evs s d).d hsw
  refine ⟨hrun.1, by rw [hend], ?_, ?_, ?_, by rw [hend]⟩
  · rw [hend]
    intro hmem
    have := playReturnAnimation_styleOnly C.E (runEvents C evs s d).d _ hmem
    simp [Effect.isStyleWrite] at this
  · rw [hend]
    intro hmem
    have := playReturnAnimation_styleOnly C.E (runEvents C evs s d).d _ hmem
    simp [Effect.isStyleWrite] at this
  · rw [hend]
    intro hmem
    have := playReturnAnimation_styleOnly C.E (runEvents C evs s d).d _ hmem
    simp [Effect.isStyleWrite] at this

/-- C6 (counterexample): a gesture that never leaves Unknown (press with no
movement, then release) nevertheless gets the ReturnToRest animation
applied on release: the handler writes a transform and panel opacities,
contradicting "no animation is applied beyond the implicit state reset". -/
theorem c6_nonhorizontal_gesture_counterexample :
    (runItem propsBothNoProgress 200 [Ev.start ⟨0, 0⟩ 0]).s.dragDirection =
      DragDirection.unknown ∧
    Effect.transform 0 ∈
      (runItem propsBothNoProgress 200 [Ev.start ⟨0, 0⟩ 0, Ev.release]).fx ∧
    Effect.opacity Panel.leftPanel OpacityStr.plain0 ∈
      (runItem propsBothNoProgress 200 [Ev.start ⟨0, 0⟩ 0, Ev.release]).fx ∧
    Effect.opacity Panel.rightPanel OpacityStr.plain0 ∈
      (runItem propsBothNoProgress 200 [Ev.start ⟨0, 0⟩ 0, Ev.release]).fx := by
  decide

/-- Witness for the amended C6: a gesture classified Down (a vertical move)
emits nothing during the drag, and its release plays exactly the return
animation without invoking anything. -/
theorem c6_nonhorizontal_gesture_witness :
    (runEvents ⟨propsBothNoProgress, envOfProps propsBothNoProgress 200⟩
      [Ev.touchMove ⟨0, 50⟩ true]
      (runItem propsBothNoProgress 200 [Ev.start ⟨0, 0⟩ 0]).s
      (runItem propsBothNoProgress 200 [Ev.start ⟨0, 0⟩ 0]).d).fx = [] ∧
    Effect.swipeEndCb ∉
      (handleDragEnd propsBothNoProgress (envOfProps propsBothNoProgress 200)
        (runEvents ⟨propsBothNoProgress, envOfProps propsBothNoProgress 200⟩
          [Ev.touchMove ⟨0, 50⟩ true]
          (runItem propsBothNoProgress 200 [Ev.start ⟨0, 0⟩ 0]).s
          (runItem propsBothNoProgress 200 [Ev.start ⟨0, 0⟩ 0]).d).s
        (runEvents ⟨propsBothNoProgress, envOfProps propsBothNoProgress 200⟩
          [Ev.touchMove ⟨0, 50⟩ true]
          (runItem propsBothNoProgress 200 [Ev.start ⟨0, 0⟩ 0]).s
          (runItem propsBothNoProgress 200 [Ev.start ⟨0, 0⟩ 0]).d).d).fx := by
  have h := c6_nonhorizontal_gesture
    ⟨propsBothNoProgress, envOfProps propsBothNoProgress 200⟩
    (runItem propsBothNoProgress 200 [Ev.start ⟨0, 0⟩ 0]).s
    (runItem propsBothNoProgress 200 [Ev.start ⟨0, 0⟩ 0]).d
    [Ev.touchMove ⟨0, 50⟩ true]
    (by decide) (by decide) (by decide)
  exact ⟨h.1, h.2.2.2.2.1⟩

/-- Shared helper: with `blockSwipe`, a non-release event emits nothing. -/
lemma step_fx_empty_blockSwipe (C : Cfg) (s : ItemState) (d : Dom) (ev : Ev)
    (hb : C.P.blockSwipe = true) (hnr : ev.isRelease = false) :
    (step C s d ev).fx = [] := by
  cases ev with
  | start p now => rfl
  | release => simp [Ev.isRelease] at hnr
  | mouseMove p =>
    show (handleMouseMove C.P C.E p s).2 = []
    unfold handleMouseMove
    by_cases hs : dragStartedWithinItem s = true
    · rw [if_pos hs]
      simp only []
      have hw : isSwiping C.P (setDragDirection C.P C.E p.x p.y s).1 = false :=
        isSwiping_eq_false_of_blockSwipe C.P _ hb
      rw [if_neg (by simp [hw])]
      exact setDragDirection_fx_empty_blockSwipe C.P C.E p.x p.y s hb
    · rw [if_neg hs]
  | touchMove p c =>
    show (handleTouchMove C.P C.E p c s).2 = []
    unfold handleTouchMove
    by_cases hs : dragStartedWithinItem s = true
    · rw [if_pos hs]
      simp only []
      have hw : isSwiping C.P (setDragDirection C.P C.E p.x p.y s).1 = false :=
        isSwiping_eq_false_of_blockSwipe C.P _ hb
      by_cases hc : (!c) = true
      · rw [if_pos hc]
        exact setDragDirection_fx_empty_blockSwipe C.P C.E p.x p.y s hb
      · rw [if_neg hc, if_neg (by simp [hw])]
        exact setDragDirection_fx_empty_blockSwipe C.P C.E p.x p.y s hb
    · rw [if_neg hs]
  | frame now =>
    simp only [step]
    by_cases hraf : s.requestedAnimationFrame = true
    · rw [if_pos hraf]
      have hw : isSwiping C.P { s with requestedAnimationFrame := false } = false :=
        isSwiping_eq_false_of_blockSwipe C.P _ hb
      rw [updatePosition_not_swiping C.P C.E now _ d hw]
    · rw [if_neg hraf]

/-- Shared helper: with `blockSwipe`, a run without release events emits
nothing and never faults. -/
lemma runEvents_blockSwipe (C : Cfg) (hb : C.P.blockSwipe = true)
    (evs : List Ev) :
    ∀ (s : ItemState) (d : Dom), evs.all (fun e => !e.isRelease) = true →
      (runEvents C evs s d).fx = [] ∧ (runEvents C evs s d).faulted = false := by
  induction evs with
  | nil =>
    intro s d _
    exact ⟨rfl, rfl⟩
  | cons e es ih =>
    intro s d hall
    simp only [List.all_cons, Bool.and_eq_true, Bool.not_eq_true'] at hall
    rw [runEvents_cons]
    simp only []
    have h1 := step_fx_empty_blockSwipe C s d e hb hall.1
    have h2 := step_not_faulted C s d e hall.1
    have h3 := ih (step C s d e).s (step C s d e).d
      (by simp only [List.all_eq_true] at hall ⊢
          intro x hx
          simp [Bool.not_eq_true', hall.2 x hx])
    rw [h1, h2, h3.1, h3.2]
    simp

/-- C8: with `blockSwipe = true`, `isSwiping()` is false on every state,
and any sequence of start/move/frame events (no release) emits no effect at
all: no transform change, no `onSwipeStart`, no `onSwipeProgress`, no
`onSwipeEnd`, no action. -/
theorem c8_blockSwipe_disables_swiping (P : Props) (hb : P.blockSwipe = true) :
    (∀ s : ItemState, isSwiping P s = false) ∧
    (∀ (E : Env) (s : ItemState) (d : Dom) (evs : List Ev),
      evs.all (fun e => !e.isRelease) = true →
      (runEvents ⟨P, E⟩ evs s d).fx = [] ∧
        (runEvents ⟨P, E⟩ evs s d).faulted = false) :=
  ⟨fun s => isSwiping_eq_false_of_blockSwipe P s hb,
    fun E s d evs hall => runEvents_blockSwipe ⟨P, E⟩ hb evs s d hall⟩

/-- Witness for C8: a blocked item dragged far to the left over several
move and frame events emits nothing. -/
theorem c8_blockSwipe_disables_swiping_witness :
    isSwiping { propsBothPanels with blockSwipe := true }
      ⟨⟨0, 0⟩, DragDirection.left, -150, 0, 0, false⟩ = false ∧
    (runEvents ⟨{ propsBothPanels with blockSwipe := true },
        envOfProps { propsBothPanels with blockSwipe := true } 200⟩
      [Ev.start ⟨0, 0⟩ 0, Ev.touchMove ⟨-150, 0⟩ true, Ev.frame 100]
      initState initDom).fx = [] := by
  have h := c8_blockSwipe_disables_swiping
    { propsBothPanels with blockSwipe := true } rfl
  exact ⟨h.1 _,
    (h.2 (envOfProps { propsBothPanels with blockSwipe := true } 200)
      initState initDom
      [Ev.start ⟨0, 0⟩ 0, Ev.touchMove ⟨-150, 0⟩ true, Ev.frame 100]
      (by decide)).1⟩

/-- The reachability invariant behind C9: a horizontal classification can
only exist when the matching action configuration exists. -/
def PanelInv (P : Props) (s : ItemState) : Prop :=
  (s.dragDirection = DragDirection.left → P.swipeLeft.isSome = true) ∧
  (s.dragDirection = DragDirection.right → P.swipeRight.isSome = true)

/-- Shared helper: the invariant only depends on the direction. -/
lemma panelInv_of_dir_eq (P : Props) (s s2 : ItemState) (h : PanelInv P s)
    (hd : s2.dragDirection = s.dragDirection) : PanelInv P s2 := by
  constructor
  · intro hh
    exact h.1 (by rw [← hd]; exact hh)
  · intro hh
    exact h.2 (by rw [← hd]; exact hh)

/-- Shared helper: an unknown direction satisfies the invariant. -/
lemma panelInv_of_unknown (P : Props) (s2 : ItemState)
    (hd : s2.dragDirection = DragDirection.unknown) : PanelInv P s2 := by
  constructor <;> intro hh <;> rw [hd] at hh <;> simp at hh

/-- Shared helper: the octant switch run against the surface rendered from
the props preserves the invariant (LEFT is gated on the `swipeLeft` panel,
RIGHT on the `swipeRight` panel). -/
lemma panelInv_classify (P : Props) (w x y : ℤ) (s s2 : ItemState)
    (h : PanelInv P s)
    (hd : s2.dragDirection =
      (classifyDirection P (envOfProps P w) x y s).dragDirection) :
    PanelInv P s2 := by
  rcases classifyDirection_dir P (envOfProps P w) x y s with
    h1 | ⟨h1, h2⟩ | ⟨h1, h2⟩ | h1 | h1
  · exact panelInv_of_dir_eq P s s2 h (by rw [hd, h1])
  · constructor
    · intro hh
      rw [hd, h1] at hh
      simp at hh
    · intro _
      simpa [envOfProps] using h2
  · constructor
    · intro _
      simpa [envOfProps] using h2
    · intro hh
      rw [hd, h1] at hh
      simp at hh
  · constructor <;> intro hh <;> rw [hd, h1] at hh <;> simp at hh
  · constructor <;> intro hh <;> rw [hd, h1] at hh <;> simp at hh

/-- Shared helper: a touch move keeps the state, or classifies it. -/
lemma handleTouchMove_dir_cases (P : Props) (E : Env) (p : Point) (c : Bool)
    (s : ItemState) :
    (handleTouchMove P E p c s).1.dragDirection = s.dragDirection ∨
    (handleTouchMove P E p c s).1.dragDirection =
      (classifyDirection P E p.x p.y s).dragDirection := by
  unfold handleTouchMove
  by_cases hs : dragStartedWithinItem s = true
  · rw [if_pos hs]
    simp only []
    have hst := setDragDirection_state P E p.x p.y s
    by_cases hc : (!c) = true
    · rw [if_pos hc]
      rcases hst with hq | hq
      · left; rw [hq]
      · right; rw [hq]
    · rw [if_neg hc]
      by_cases hw : isSwiping P (setDragDirection P E p.x p.y s).1 = true
      · rw [if_pos hw]
        simp only [scheduleUpdatePosition_dragDirection]
        rcases hst with hq | hq
        · left; rw [hq]
        · right; rw [hq]
      · rw [if_neg hw]
        rcases hst with hq | hq
        · left; rw [hq]
        · right; rw [hq]
  · rw [if_neg hs]
    left
    rfl

/-- Shared helper: a mouse move keeps the state, or classifies it. -/
lemma handleMouseMove_dir_cases (P : Props) (E : Env) (p : Point)
    (s : ItemState) :
    (handleMouseMove P E p s).1.dragDirection = s.dragDirection ∨
    (handleMouseMove P E p s).1.dragDirection =
      (classifyDirection P E p.x p.y s).dragDirection := by
  unfold handleMouseMove
  by_cases hs : dragStartedWithinItem s = true
  · rw [if_pos hs]
    simp only []
    have hst := setDragDirection_state P E p.x p.y s
    by_cases hw : isSwiping P (setDragDirection P E p.x p.y s).1 = true
    · rw [if_pos hw]
      simp only [scheduleUpdatePosition_dragDirection]
      rcases hst with hq | hq
      · left; rw [hq]
      · right; rw [hq]
    · rw [if_neg hw]
      rcases hst with hq | hq
      · left; rw [hq]
      · right; rw [hq]
  · rw [if_neg hs]
    left
    rfl

/-- Shared helper: a release keeps the state (on fault) or resets the
direction. -/
lemma handleDragEnd_dir_cases (P : Props) (E : Env) (s : ItemState) (d : Dom) :
    (handleDragEnd P E s d).s.dragDirection = s.dragDirection ∨
    (handleDragEnd P E s d).s.dragDirection = DragDirection.unknown := by
  simp only [handleDragEnd]
  by_cases hsw : isSwiping P s = true
  · rw [if_pos hsw]
    by_cases h1 : E.listElement = true ∧
        (s.left : ℚ) < (E.offsetWidth : ℚ) * P.threshold.getD (1 / 2) * (-1)
    · rw [if_pos h1]
      cases P.swipeLeft with
      | none => left; rfl
      | some sa => right; rfl
    · rw [if_neg h1]
      by_cases h2 : E.listElement = true ∧
          (s.left : ℚ) > (E.offsetWidth : ℚ) * P.threshold.getD (1 / 2)
      · rw [if_pos h2]
        cases P.swipeRight with
        | none => left; rfl
        | some sa => right; rfl
      · rw [if_neg h2]
        right
        rfl
  · rw [if_neg hsw]
    right
    rfl

/-- Shared helper: every event preserves the panel invariant when the
surface is the one rendered from the props. -/
lemma step_panelInv (P : Props) (w : ℤ) (s : ItemState) (d : Dom) (ev : Ev)
    (h : PanelInv P s) :
    PanelInv P (step ⟨P, envOfProps P w⟩ s d ev).s := by
  cases ev with
  | start p now =>
    exact panelInv_of_unknown P _ (handleDragStart_dir p now s d)
  | mouseMove p =>
    rcases handleMouseMove_dir_cases P (envOfProps P w) p s with hq | hq
    · exact panelInv_of_dir_eq P s _ h hq
    · exact panelInv_classify P w p.x p.y s _ h hq
  | touchMove p c =>
    rcases handleTouchMove_dir_cases P (envOfProps P w) p c s with hq | hq
    · exact panelInv_of_dir_eq P s _ h hq
    · exact panelInv_classify P w p.x p.y s _ h hq
  | frame now =>
    simp only [step]
    by_cases hraf : s.requestedAnimationFrame = true
    · rw [if_pos hraf]
      refine panelInv_of_dir_eq P s _ h ?_
      simp only []
      exact updatePosition_dragDirection P (envOfProps P w) now _ d
    · rw [if_neg hraf]
      exact h
  | release =>
    rcases handleDragEnd_dir_cases P (envOfProps P w) s d with hq | hq
    · exact panelInv_of_dir_eq P s _ h hq
    · exact panelInv_of_unknown P _ hq

/-- Shared helper: the invariant holds on every state reachable by any
event sequence from a freshly mounted item. -/
lemma runEvents_panelInv (P : Props) (w : ℤ) (evs : List Ev) :
    ∀ (s : ItemState) (d : Dom), PanelInv P s →
      PanelInv P (runEvents ⟨P, envOfProps P w⟩ evs s d).s := by
  induction evs with
  | nil =>
    intro s d h
    exact h
  | cons e es ih =>
    intro s d h
    rw [runEvents_cons]
    exact ih _ _ (step_panelInv P w s d e h)
/-- Shared helper: with `swipeLeft` present, a release cannot fault in the
left-trigger branch (and the right branch is unreachable past it). -/
lemma handleDragEnd_no_fault_left (P : Props) (E : Env) (s : ItemState)
    (d : Dom) (hsome : P.swipeLeft.isSome = true)
    (hlt : (s.left : ℚ) < (E.offsetWidth : ℚ) * P.threshold.getD (1 / 2) * (-1)) :
    (handleDragEnd P E s d).faulted = false := by
  simp only [handleDragEnd]
  by_cases hsw : isSwiping P s = true
  · rw [if_pos hsw]
    by_cases hle : E.listElement = true
    · rw [if_pos ⟨hle, hlt⟩]
      cases hL : P.swipeLeft with
      | none =>
        rw [hL] at hsome
        simp at hsome
      | some sa => rfl
    · rw [if_neg (fun hcon => hle hcon.1),
        if_neg (fun hcon => hle hcon.1)]
  · rw [if_neg hsw]

/-- Shared helper: with `swipeRight` present and the left branch not taken,
a release cannot fault. -/
lemma handleDragEnd_no_fault_right (P : Props) (E : Env) (s : ItemState)
    (d : Dom) (hsome : P.swipeRight.isSome = true)
    (hnlt : ¬((s.left : ℚ) <
      (E.offsetWidth : ℚ) * P.threshold.getD (1 / 2) * (-1))) :
    (handleDragEnd P E s d).faulted = false := by
  simp only [handleDragEnd]
  by_cases hsw : isSwiping P s = true
  · rw [if_pos hsw, if_neg (fun hcon => hnlt hcon.2)]
    by_cases h2 : E.listElement = true ∧
        (s.left : ℚ) > (E.offsetWidth : ℚ) * P.threshold.getD (1 / 2)
    · rw [if_pos h2]
      cases hR : P.swipeRight with
      | none =>
        rw [hR] at hsome
        simp at hsome
      | some sa => rfl
    · rw [if_neg h2]
  · rw [if_neg hsw]

/-- C9 (counterexample): the unguarded `swipeLeft.actionAnimation` read CAN
fault.  With only a right action configured, classify RIGHT by dragging
right, then drag far left and release: the final offset passes the
left-trigger test while `swipeLeft` is undefined, so `handleDragEnd`
throws. -/
theorem c9_branch_guard_counterexample :
    (runItem propsRightOnly 200
      [Ev.start ⟨0, 0⟩ 0, Ev.touchMove ⟨30, 0⟩ true,
        Ev.touchMove ⟨-150, 0⟩ true, Ev.release]).faulted = true ∧
    propsRightOnly.swipeLeft = none :=
  ⟨by decide, rfl⟩

/-- C9 (amended): on every reachable state of a freshly mounted item,
direction Left implies `swipeLeft` is present (LEFT is classified only
while the left panel element exists, which `render` mounts only when
`swipeLeft` is provided) and symmetrically for Right; hence a release whose
branch matches the classified direction never faults.  However the claim's
conclusion that the unguarded accesses NEVER fault is wrong: the branch is
selected by the offset sign alone, so a gesture classified Right released
far on the left reaches the left branch, where `swipeLeft` may be absent
(see the counterexample). -/
theorem c9_branch_guarded_by_direction (P : Props) (w : ℤ) (evs : List Ev) :
    ((runItem P w evs).s.dragDirection = DragDirection.left →
      P.swipeLeft.isSome = true) ∧
    ((runItem P w evs).s.dragDirection = DragDirection.right →
      P.swipeRight.isSome = true) ∧
    ((runItem P w evs).s.dragDirection = DragDirection.left →
      ((runItem P w evs).s.left : ℚ) < (w : ℚ) * P.threshold.getD (1 / 2) * (-1) →
      (handleDragEnd P (envOfProps P w) (runItem P w evs).s
        (runItem P w evs).d).faulted = false) ∧
    ((runItem P w evs).s.dragDirection = DragDirection.right →
      ¬(((runItem P w evs).s.left : ℚ) <
        (w : ℚ) * P.threshold.getD (1 / 2) * (-1)) →
      (handleDragEnd P (envOfProps P w) (runItem P w evs).s
        (runItem P w evs).d).faulted = false) := by
  have hinv := runEvents_panelInv P w evs initState initDom
    (panelInv_of_unknown P initState rfl)
  refine ⟨hinv.1, hinv.2, ?_, ?_⟩
  · intro hdir hlt
    exact handleDragEnd_no_fault_left P (envOfProps P w) _ _ (hinv.1 hdir) hlt
  · intro hdir hnlt
    exact handleDragEnd_no_fault_right P (envOfProps P w) _ _ (hinv.2 hdir) hnlt

/-- Witness for the amended C9: a gesture classified Left released at −101
(width 200): `swipeLeft` is present and the release does not fault. -/
theorem c9_branch_guarded_by_direction_witness :
    propsBothPanels.swipeLeft.isSome = true ∧
    (handleDragEnd propsBothPanels (envOfProps propsBothPanels 200)
      (runItem propsBothPanels 200
        [Ev.start ⟨0, 0⟩ 0, Ev.touchMove ⟨-30, 0⟩ true,
          Ev.touchMove ⟨-101, 0⟩ true]).s
      (runItem propsBothPanels 200
        [Ev.start ⟨0, 0⟩ 0, Ev.touchMove ⟨-30, 0⟩ true,
          Ev.touchMove ⟨-101, 0⟩ true]).d).faulted = false := by
  have h := c9_branch_guarded_by_direction propsBothPanels 200
    [Ev.start ⟨0, 0⟩ 0, Ev.touchMove ⟨-30, 0⟩ true, Ev.touchMove ⟨-101, 0⟩ true]
  exact ⟨h.1 (by decide), h.2.2.1 (by decide) (by decide)⟩

end SwipeableListItem
